import Mathlib

/-!
Verification of the migration-conflict-detector core (parser, normalizer,
tokenizer, schema graph, comparator, matcher, rules, orchestrator) against
its natural-language specification.  Every definition is a shallow embedding
of the corresponding Python definition in src/, with the source file and
symbol named in its doc comment.  Python dicts are embedded as insertion
ordered association lists, Python sets as lists considered up to membership,
exceptions as Except, and mutation as explicit state passing.
-/

set_option autoImplicit false
set_option maxRecDepth 4000

deriving instance DecidableEq for Except

namespace MigrationDetector

/-- ObjectType enumeration (src/core/models.py, class ObjectType). -/
inductive ObjectType where
  | schema | table | column | constraint | index | foreign_key | primary_key
  | unique_constraint | check_constraint | view | function | trigger
  deriving DecidableEq, Repr

/-- String value of each ObjectType member (src/core/models.py). -/
def ObjectType.value : ObjectType → String
  | .schema => "schema"
  | .table => "table"
  | .column => "column"
  | .constraint => "constraint"
  | .index => "index"
  | .foreign_key => "foreign_key"
  | .primary_key => "primary_key"
  | .unique_constraint => "unique_constraint"
  | .check_constraint => "check_constraint"
  | .view => "view"
  | .function => "function"
  | .trigger => "trigger"

/-- RelationType enumeration (src/core/models.py, class RelationType). -/
inductive RelationType where
  | contains | references | depends_on | enforced_by | composed_of | uses | triggers
  deriving DecidableEq, Repr

/-- Foreign-key descriptor dict as produced by SQLParser (src/parser/sql_parser.py):
keys column, referenced_schema, referenced_table, referenced_column; the
column-level form has no column key, embedded here as an Option field. -/
structure FKInfo where
  column : Option String
  referenced_schema : Option String
  referenced_table : Option String
  referenced_column : Option String
  deriving DecidableEq, Repr

/-- Values stored in the open attribute map of a DatabaseObject.  The source
stores strings, booleans, Python None, a foreign-key dict (attribute
foreign_key of a Column) and a list of foreign-key dicts (attribute
foreign_keys of a Table); no other value shape is created anywhere in src/. -/
inductive AttrValue where
  | str (s : String)
  | bool (b : Bool)
  | none
  | fk (f : FKInfo)
  | fkList (l : List FKInfo)
  deriving DecidableEq, Repr

/-- Python str.lower (ASCII case mapping, which covers every identifier and
keyword the pipeline handles). -/
def pyLower (s : String) : String := ⟨s.data.map Char.toLower⟩

/-- Python str.upper (ASCII case mapping). -/
def pyUpper (s : String) : String := ⟨s.data.map Char.toUpper⟩

/-- Python str() of an attribute value as used in f-strings and str() calls. -/
def AttrValue.pyStr : AttrValue → String
  | .str s => s
  | .bool b => if b then "True" else "False"
  | .none => "None"
  | .fk _ => "<dict-repr>"
  | .fkList _ => "<list-repr>"

/-- Python truthiness of an attribute value. -/
def AttrValue.pyTruthy : AttrValue → Bool
  | .str s => !s.isEmpty
  | .bool b => b
  | .none => false
  | .fk _ => true
  | .fkList l => !l.isEmpty

/-- Attribute maps: Python dicts embedded as insertion-ordered association
lists with unique keys (every construction site below preserves uniqueness,
as dict assignment and setdefault do). -/
abbrev Attrs := List (String × AttrValue)

/-- Python dict.get(key): returns the value or None (src uses .get throughout). -/
def pyGet (attrs : Attrs) (k : String) : AttrValue :=
  (attrs.lookup k).getD .none

/-- Python dict.setdefault(key, value): inserts only when the key is absent. -/
def pySetdefault (attrs : Attrs) (k : String) (v : AttrValue) : Attrs :=
  if (attrs.lookup k).isSome then attrs else attrs ++ [(k, v)]

/-- Python dict assignment d[key] = value: overwrites in place or appends. -/
def pySet (attrs : Attrs) (k : String) (v : AttrValue) : Attrs :=
  if (attrs.lookup k).isSome then
    attrs.map (fun p => if p.1 = k then (k, v) else p)
  else attrs ++ [(k, v)]

/-- DatabaseObject (src/core/models.py, dataclass DatabaseObject).  The schema
field is Option String because SQLParser constructs Columns with schema=None.
The Column/Table subclasses only add fields the pipeline re-reads through the
attribute map, so graph vertices are uniformly embedded as DatabaseObject. -/
structure DatabaseObject where
  id : Nat
  type : ObjectType
  name : String
  schema : Option String
  attributes : Attrs
  deriving DecidableEq, Repr

/-- Python equality of DatabaseObject: only (type, schema, name) take part
(src/core/models.py, DatabaseObject.eq and hash). -/
def pyEq (a b : DatabaseObject) : Bool :=
  a.type = b.type && a.schema = b.schema && a.name = b.name

/-- Membership in a Python set of DatabaseObject, i.e. membership up to pyEq. -/
def pyMem (o : DatabaseObject) (s : List DatabaseObject) : Prop :=
  ∃ x ∈ s, pyEq x o

instance (o : DatabaseObject) (s : List DatabaseObject) : Decidable (pyMem o s) := by
  unfold pyMem; infer_instance

/-- Python set construction from a list: keep the first representative of
each pyEq equivalence class, tracking the representatives seen so far. -/
def pySetOfAux (seen : List DatabaseObject) : List DatabaseObject → List DatabaseObject
  | [] => []
  | o :: rest =>
      if seen.any (fun x => pyEq x o) then pySetOfAux seen rest
      else o :: pySetOfAux (seen ++ [o]) rest

/-- Python set construction from a list. -/
def pySetOf (l : List DatabaseObject) : List DatabaseObject := pySetOfAux [] l

/-- Edge of the schema graph (src/graph/schema_graph.py, dataclass Edge). -/
structure Edge where
  src : Nat
  dst : Nat
  relation : RelationType
  deriving DecidableEq, Repr

/-- SchemaGraph (src/graph/schema_graph.py, class SchemaGraph): vertex-id
counter starting at 1, an insertion-ordered id-to-object dict, and a set of
edges embedded as a duplicate-free insertion-ordered list. -/
structure SchemaGraph where
  name : String
  next_id : Nat
  vertices : List (Nat × DatabaseObject)
  edges : List Edge
  deriving DecidableEq, Repr

namespace SchemaGraph

/-- SchemaGraph.__init__ (src/graph/schema_graph.py). -/
def init (name : String) : SchemaGraph :=
  { name := name, next_id := 1, vertices := [], edges := [] }

/-- Ids currently stored in the vertex dict. -/
def ids (g : SchemaGraph) : List Nat := g.vertices.map Prod.fst

/-- Objects currently stored in the vertex dict (dict .values() order). -/
def objs (g : SchemaGraph) : List DatabaseObject := g.vertices.map Prod.snd

/-- SchemaGraph.add_vertex: assigns obj.id := next_id, stores it, increments
the counter, and returns the assigned id. -/
def add_vertex (g : SchemaGraph) (obj : DatabaseObject) : SchemaGraph × Nat :=
  ({ g with
      vertices := g.vertices ++ [(g.next_id, { obj with id := g.next_id })],
      next_id := g.next_id + 1 },
   g.next_id)

/-- SchemaGraph.get_vertex: dict .get by id. -/
def get_vertex (g : SchemaGraph) (i : Nat) : Option DatabaseObject :=
  g.vertices.lookup i

/-- SchemaGraph.add_edge: raises ValueError unless both endpoint ids are
stored; otherwise inserts into the edge set (deduplicated). -/
def add_edge (g : SchemaGraph) (src_id dst_id : Nat) (relation : RelationType) :
    Except String SchemaGraph :=
  if src_id ∈ g.ids ∧ dst_id ∈ g.ids then
    .ok { g with
            edges :=
              if Edge.mk src_id dst_id relation ∈ g.edges then g.edges
              else g.edges ++ [Edge.mk src_id dst_id relation] }
  else
    .error "Both vertices must exist before adding an edge"

/-- SchemaGraph.get_outgoing with an optional single relation filter. -/
def get_outgoing (g : SchemaGraph) (obj : DatabaseObject)
    (relation : Option RelationType) : List Edge :=
  g.edges.filter (fun e =>
    e.src = obj.id ∧ (∀ r ∈ relation, e.relation = r))

/-- SchemaGraph.get_incoming with an optional relation filter.  The source
also accepts a set of relations; every call site in the rules passes either
None or a single relation, which is the case embedded here. -/
def get_incoming (g : SchemaGraph) (obj : DatabaseObject)
    (relation : Option RelationType) : List Edge :=
  g.edges.filter (fun e =>
    e.dst = obj.id ∧ (∀ r ∈ relation, e.relation = r))

/-- SchemaGraph.get_table_of_object: a table is its own table; any other
object resolves through its first outgoing Contains edge (or None). -/
def get_table_of_object (g : SchemaGraph) (obj : DatabaseObject) :
    Option DatabaseObject :=
  if obj.type = .table then some obj
  else
    match g.edges.find? (fun e => e.src = obj.id ∧ e.relation = .contains) with
    | some e => g.get_vertex e.dst
    | none => none

end SchemaGraph

/-- Graphs reachable through the public mutating operations of SchemaGraph:
construction, add_vertex and successful add_edge.  No operation removes or
renumbers vertices, so this inductive captures every graph state the
pipeline can produce. -/
inductive Reachable : SchemaGraph → Prop where
  | init (name : String) : Reachable (SchemaGraph.init name)
  | add_vertex {g : SchemaGraph} (obj : DatabaseObject) :
      Reachable g → Reachable (g.add_vertex obj).1
  | add_edge {g g' : SchemaGraph} {s d : Nat} {r : RelationType} :
      Reachable g → g.add_edge s d r = .ok g' → Reachable g'

theorem ids_add_vertex (g : SchemaGraph) (obj : DatabaseObject) :
    (g.add_vertex obj).1.ids = g.ids ++ [g.next_id] := by
  simp [SchemaGraph.add_vertex, SchemaGraph.ids]

theorem add_edge_ok_elim {g g' : SchemaGraph} {s d : Nat} {r : RelationType}
    (h : g.add_edge s d r = .ok g') :
    s ∈ g.ids ∧ d ∈ g.ids ∧ g'.ids = g.ids ∧
      ∀ e ∈ g'.edges, e ∈ g.edges ∨ e = Edge.mk s d r := by
  unfold SchemaGraph.add_edge at h
  split at h
  case isTrue hmem =>
    refine ⟨hmem.1, hmem.2, ?_, ?_⟩
    · cases h; rfl
    · cases h
      intro e he
      split at he
      · exact Or.inl he
      · rcases List.mem_append.mp he with h1 | h2
        · exact Or.inl h1
        · simp only [List.mem_singleton] at h2; exact Or.inr h2
  case isFalse => cases h

end MigrationDetector

namespace MigrationDetector

/-- ModifiedObject (src/comparison/delta.py): before/after pair plus the set
of changed attribute names, the set embedded as a duplicate-free list. -/
structure ModifiedObject where
  before : DatabaseObject
  after : DatabaseObject
  changed_fields : List String
  deriving DecidableEq, Repr

/-- Delta (src/comparison/delta.py): the object-typed fields are Python sets,
embedded as lists considered up to pyEq membership (pySetOf keeps one
representative per equivalence class, as a Python set does). -/
structure Delta where
  objects_added : List DatabaseObject
  objects_removed : List DatabaseObject
  objects_modified : List ModifiedObject
  edges_added : List Edge
  edges_removed : List Edge
  deriving DecidableEq, Repr

/-- Delta.modified_by_type (src/comparison/delta.py). -/
def Delta.modified_by_type (d : Delta) (t : ObjectType) : List ModifiedObject :=
  d.objects_modified.filter (fun m => m.before.type = t)

/-- Python (x or "public") applied to the Option-valued schema field. -/
def orPublic : Option String → String
  | some s => if s = "" then "public" else s
  | none => "public"

/-- Equivalence key _object_key (src/comparison/comparator.py, lines 19-28):
lowercased schema with public default, the object-type value string, the
lowercased stringified table attribute for columns only (attribute lookup
with default empty string), and the lowercased name. -/
def object_key (o : DatabaseObject) : String × String × String × String :=
  let schema := pyLower (orPublic o.schema)
  let name := pyLower o.name
  let obj_type := o.type.value
  let table :=
    if obj_type = "column" then
      pyLower ((o.attributes.lookup "table").getD (.str "")).pyStr
    else ""
  (schema, obj_type, table, name)

abbrev ObjKey := String × String × String × String

/-- Key set of the dict comprehension objs = (object_key o : o for o in
vertices.values()) built inside GraphComparator.compare. -/
def keyList (g : SchemaGraph) : List ObjKey :=
  (g.objs.map object_key).dedup

/-- Lookup in that dict: the comprehension runs in insertion order and later
entries overwrite earlier ones, so a key maps to the last object bearing it. -/
def keyLookup (g : SchemaGraph) (k : ObjKey) : Option DatabaseObject :=
  (g.objs.filter (fun o => decide (object_key o = k))).getLast?

/-- GraphComparator._diff_attributes (src/comparison/comparator.py, lines
88-108): over the union of the two key sets, a key is changed when the two
dict .get lookups (absent defaulting to None) disagree. -/
def diff_attributes (obj_a obj_b : DatabaseObject) : List String :=
  ((obj_a.attributes.map Prod.fst) ++ (obj_b.attributes.map Prod.fst)).dedup.filter
    (fun k => decide (pyGet obj_a.attributes k ≠ pyGet obj_b.attributes k))

/-- GraphComparator.compare (src/comparison/comparator.py, lines 36-86):
index both vertex sets by equivalence key, set-difference the key sets into
added/removed objects, scan the intersection for attribute differences, and
set-difference the raw edge sets. -/
def GraphComparator.compare (graph_a graph_b : SchemaGraph) : Delta :=
  let keys_a := keyList graph_a
  let keys_b := keyList graph_b
  let objects_added :=
    pySetOf ((keys_b.filter (fun k => decide (k ∉ keys_a))).filterMap (keyLookup graph_b))
  let objects_removed :=
    pySetOf ((keys_a.filter (fun k => decide (k ∉ keys_b))).filterMap (keyLookup graph_a))
  let objects_modified :=
    (keys_a.filter (fun k => decide (k ∈ keys_b))).filterMap (fun k =>
      match keyLookup graph_a k, keyLookup graph_b k with
      | some obj_a, some obj_b =>
          let changed := diff_attributes obj_a obj_b
          if changed = [] then none
          else some ⟨obj_a, obj_b, changed⟩
      | _, _ => none)
  let edges_added := graph_b.edges.filter (fun e => decide (e ∉ graph_a.edges))
  let edges_removed := graph_a.edges.filter (fun e => decide (e ∉ graph_b.edges))
  ⟨objects_added, objects_removed, objects_modified, edges_added, edges_removed⟩

/-- Key injectivity within one graph: distinct stored vertices never share an
equivalence key.  This is the precondition strict vertex matching checks. -/
def KeysInjective (g : SchemaGraph) : Prop :=
  ∀ o1 ∈ g.objs, ∀ o2 ∈ g.objs, object_key o1 = object_key o2 → o1 = o2

instance (g : SchemaGraph) : Decidable (KeysInjective g) := by
  unfold KeysInjective; infer_instance

theorem pyEq_trans {a b c : DatabaseObject} (h1 : pyEq a b) (h2 : pyEq b c) :
    pyEq a c := by
  simp only [pyEq, Bool.and_eq_true, decide_eq_true_eq] at *
  exact ⟨⟨h1.1.1.trans h2.1.1, h1.1.2.trans h2.1.2⟩, h1.2.trans h2.2⟩

theorem pyEq_refl (a : DatabaseObject) : pyEq a a := by
  simp [pyEq]

theorem pySetOfAux_subset {o : DatabaseObject} :
    ∀ {seen l : List DatabaseObject}, o ∈ pySetOfAux seen l → o ∈ l := by
  intro seen l
  induction l generalizing seen with
  | nil => intro h; simp [pySetOfAux] at h
  | cons a rest ih =>
      intro h
      rw [pySetOfAux] at h
      split at h
      · exact List.mem_cons_of_mem _ (ih h)
      · rcases List.mem_cons.mp h with rfl | h2
        · exact List.mem_cons_self _ _
        · exact List.mem_cons_of_mem _ (ih h2)

theorem pySetOf_subset {l : List DatabaseObject} {o : DatabaseObject}
    (h : o ∈ pySetOf l) : o ∈ l := pySetOfAux_subset h

theorem pySetOfAux_covers {x : DatabaseObject} :
    ∀ {seen l : List DatabaseObject}, x ∈ l → (∀ s ∈ seen, ¬ pyEq s x) →
      ∃ y ∈ pySetOfAux seen l, pyEq y x := by
  intro seen l
  induction l generalizing seen with
  | nil => intro h; simp at h
  | cons a rest ih =>
      intro hx hseen
      rw [pySetOfAux]
      by_cases hseenA : seen.any (fun s => pyEq s a)
      · rw [if_pos hseenA]
        have hax : ¬ pyEq a x := by
          intro hax
          obtain ⟨s, hs, hsa⟩ := List.any_eq_true.mp hseenA
          exact hseen s hs (pyEq_trans (by simpa using hsa) hax)
        have hxrest : x ∈ rest := by
          rcases List.mem_cons.mp hx with rfl | h2
          · exact absurd (pyEq_refl x) hax
          · exact h2
        exact ih hxrest hseen
      · rw [if_neg hseenA]
        by_cases hax : pyEq a x
        · exact ⟨a, List.mem_cons_self _ _, hax⟩
        · have hxrest : x ∈ rest := by
            rcases List.mem_cons.mp hx with rfl | h2
            · exact absurd (pyEq_refl x) hax
            · exact h2
          have hseen' : ∀ s ∈ seen ++ [a], ¬ pyEq s x := by
            intro s hs
            rcases List.mem_append.mp hs with h1 | h1
            · exact hseen s h1
            · rw [List.mem_singleton.mp h1]; exact hax
          obtain ⟨y, hy, hyx⟩ := ih hxrest hseen'
          exact ⟨y, List.mem_cons_of_mem _ hy, hyx⟩

theorem pySetOf_covers {l : List DatabaseObject} {o : DatabaseObject}
    (h : o ∈ l) : ∃ y ∈ pySetOf l, pyEq y o :=
  pySetOfAux_covers h (by simp)

theorem mem_keyList {g : SchemaGraph} {k : ObjKey} :
    k ∈ keyList g ↔ ∃ o ∈ g.objs, object_key o = k := by
  simp [keyList, List.mem_dedup, List.mem_map]

theorem keyLookup_mem {g : SchemaGraph} {k : ObjKey} {o : DatabaseObject}
    (h : keyLookup g k = some o) : o ∈ g.objs ∧ object_key o = k := by
  rw [keyLookup] at h
  have hmem : o ∈ g.objs.filter (fun x => decide (object_key x = k)) := by
    obtain ⟨hne, heq⟩ := List.mem_getLast?_eq_getLast (Option.mem_def.mpr h)
    exact heq ▸ List.getLast_mem hne
  have hf := List.mem_filter.mp hmem
  exact ⟨hf.1, by simpa using hf.2⟩

theorem keyLookup_isSome_of_mem {g : SchemaGraph} {o : DatabaseObject}
    (ho : o ∈ g.objs) : (keyLookup g (object_key o)).isSome := by
  have hmem : o ∈ g.objs.filter (fun x => decide (object_key x = object_key o)) :=
    List.mem_filter.mpr ⟨ho, by simp⟩
  have hne : g.objs.filter (fun x => decide (object_key x = object_key o)) ≠ [] :=
    List.ne_nil_of_mem hmem
  rw [keyLookup, Option.isSome_iff_ne_none]
  simpa [List.getLast?_eq_none_iff] using hne

theorem keyLookup_self {g : SchemaGraph} (hg : KeysInjective g)
    {o : DatabaseObject} (ho : o ∈ g.objs) :
    keyLookup g (object_key o) = some o := by
  obtain ⟨x, hx⟩ := Option.isSome_iff_exists.mp (keyLookup_isSome_of_mem ho)
  have hxm := keyLookup_mem hx
  have hxo : x = o := hg x hxm.1 o ho hxm.2
  rw [hx, hxo]

theorem mem_keyList_iff_lookup {g : SchemaGraph} {k : ObjKey} :
    k ∈ keyList g ↔ (keyLookup g k).isSome := by
  constructor
  · intro h
    obtain ⟨o, ho, hk⟩ := mem_keyList.mp h
    exact hk ▸ keyLookup_isSome_of_mem ho
  · intro h
    obtain ⟨o, ho⟩ := Option.isSome_iff_exists.mp h
    obtain ⟨h1, h2⟩ := keyLookup_mem ho
    exact mem_keyList.mpr ⟨o, h1, h2⟩

theorem lookup_eq_none_of_not_mem_keys :
    ∀ {attrs : Attrs} {n : String}, n ∉ attrs.map Prod.fst → attrs.lookup n = none
  | [], _, _ => rfl
  | (k, v) :: rest, n, h => by
      have h1 : n ≠ k := fun he => h (by simp [he])
      have h2 : n ∉ rest.map Prod.fst := fun he => h (by simp [he])
      have hbeq : (n == k) = false := beq_eq_false_iff_ne.mpr h1
      simp [List.lookup, hbeq, lookup_eq_none_of_not_mem_keys h2]

theorem mem_diff_attributes {a b : DatabaseObject} {n : String} :
    n ∈ diff_attributes a b ↔ pyGet a.attributes n ≠ pyGet b.attributes n := by
  constructor
  · intro h
    simpa using (List.mem_filter.mp h).2
  · intro h
    refine List.mem_filter.mpr ⟨?_, by simpa using h⟩
    by_contra hn
    rw [List.mem_dedup, List.mem_append] at hn
    push_neg at hn
    have ha : a.attributes.lookup n = none := lookup_eq_none_of_not_mem_keys hn.1
    have hb : b.attributes.lookup n = none := lookup_eq_none_of_not_mem_keys hn.2
    exact h (by simp [pyGet, ha, hb])

theorem countP_filterMap_unique {κ M : Type} [DecidableEq κ]
    (l : List κ) (hnd : l.Nodup) (f : κ → Option M) (key : M → κ)
    (hf : ∀ k m, f k = some m → key m = k) (k : κ) :
    (l.filterMap f).countP (fun m => decide (key m = k)) =
      if k ∈ l ∧ (f k).isSome then 1 else 0 := by
  induction l with
  | nil => simp
  | cons a l ih =>
      have hnd' := List.nodup_cons.mp hnd
      rw [List.filterMap_cons]
      cases hfa : f a with
      | none =>
          rw [ih hnd'.2]
          by_cases hk : k = a
          · subst hk; simp [hfa]
          · simp [List.mem_cons, hk]
      | some m =>
          rw [List.countP_cons, ih hnd'.2]
          have hkm := hf a m hfa
          by_cases hk : k = a
          · subst hk
            simp [hkm, hfa, hnd'.1]
          · have : ¬ (key m = k) := by rw [hkm]; exact fun he => hk he.symm
            simp [List.mem_cons, hk, this]

/-- Membership of the key-difference sets built inside compare, stated
generically over the two graph roles. -/
theorem diffSet_mem {G1 G2 : SchemaGraph} (hG1 : KeysInjective G1)
    (o : DatabaseObject) :
    pyMem o (pySetOf (((keyList G1).filter
        (fun k => decide (k ∉ keyList G2))).filterMap (keyLookup G1))) ↔
      ∃ x ∈ G1.objs, pyEq x o ∧ object_key x ∉ keyList G2 := by
  constructor
  · rintro ⟨y, hy, hyo⟩
    have hyL := pySetOf_subset hy
    obtain ⟨k, hk, hlk⟩ := List.mem_filterMap.mp hyL
    have hkf := List.mem_filter.mp hk
    obtain ⟨hyobjs, hyk⟩ := keyLookup_mem hlk
    refine ⟨y, hyobjs, hyo, ?_⟩
    rw [hyk]
    simpa using hkf.2
  · rintro ⟨x, hx, hxo, hxk⟩
    have hlk : keyLookup G1 (object_key x) = some x := keyLookup_self hG1 hx
    have hkin : object_key x ∈ keyList G1 := mem_keyList.mpr ⟨x, hx, rfl⟩
    have hmem : x ∈ ((keyList G1).filter
        (fun k => decide (k ∉ keyList G2))).filterMap (keyLookup G1) :=
      List.mem_filterMap.mpr
        ⟨object_key x, List.mem_filter.mpr ⟨hkin, by simpa using hxk⟩, hlk⟩
    obtain ⟨y, hy, hyx⟩ := pySetOf_covers hmem
    exact ⟨y, hy, pyEq_trans hyx hxo⟩

/-- The per-key entry function used for objects_modified inside compare. -/
def modEntry (graph_a graph_b : SchemaGraph) (k : ObjKey) : Option ModifiedObject :=
  match keyLookup graph_a k, keyLookup graph_b k with
  | some obj_a, some obj_b =>
      let changed := diff_attributes obj_a obj_b
      if changed = [] then none
      else some ⟨obj_a, obj_b, changed⟩
  | _, _ => none

theorem keyList_nodup (g : SchemaGraph) : (keyList g).Nodup := by
  rw [keyList]; exact List.nodup_dedup _

theorem compare_objects_modified (A B : SchemaGraph) :
    (GraphComparator.compare A B).objects_modified =
      ((keyList A).filter (fun k => decide (k ∈ keyList B))).filterMap (modEntry A B) := by
  rfl

theorem modEntry_key {A B : SchemaGraph} {k : ObjKey} {m : ModifiedObject}
    (h : modEntry A B k = some m) :
    keyLookup A k = some m.before ∧ keyLookup B k = some m.after ∧
      m.changed_fields = diff_attributes m.before m.after ∧
      m.changed_fields ≠ [] ∧ object_key m.before = k := by
  unfold modEntry at h
  cases ha : keyLookup A k with
  | none => rw [ha] at h; cases h
  | some a =>
    cases hb : keyLookup B k with
    | none => rw [ha, hb] at h; cases h
    | some b =>
      rw [ha, hb] at h
      by_cases hdiff : diff_attributes a b = []
      · simp [hdiff] at h
      · simp only [hdiff, if_neg, ite_false] at h
        cases h
        exact ⟨rfl, rfl, rfl, hdiff, (keyLookup_mem ha).2⟩

end MigrationDetector

namespace MigrationDetector

/-- C2 (amended): for graphs whose vertices carry pairwise-distinct
equivalence keys within each graph, compare returns a Delta whose
objects_added are, up to Python object equality, exactly the objects of B
whose key is not a key of A, whose objects_removed are exactly the objects of
A whose key is not a key of B, and whose objects_modified has exactly one
entry per key common to both graphs on which the attribute maps disagree,
with changed_fields holding exactly the attribute names whose two dict
lookups (absent defaulting to None) differ. -/
theorem c2_compare_delta (A B : SchemaGraph)
    (hA : KeysInjective A) (hB : KeysInjective B) :
    (∀ o, pyMem o (GraphComparator.compare A B).objects_added ↔
        ∃ x ∈ B.objs, pyEq x o ∧ object_key x ∉ keyList A)
    ∧ (∀ o, pyMem o (GraphComparator.compare A B).objects_removed ↔
        ∃ x ∈ A.objs, pyEq x o ∧ object_key x ∉ keyList B)
    ∧ (∀ k, ((GraphComparator.compare A B).objects_modified.countP
          (fun m => decide (object_key m.before = k))) =
        (match keyLookup A k, keyLookup B k with
         | some a, some b => if diff_attributes a b = [] then 0 else 1
         | _, _ => 0))
    ∧ (∀ m ∈ (GraphComparator.compare A B).objects_modified,
        keyLookup A (object_key m.before) = some m.before ∧
        keyLookup B (object_key m.before) = some m.after ∧
        m.changed_fields ≠ [] ∧
        ∀ n, n ∈ m.changed_fields ↔
          pyGet m.before.attributes n ≠ pyGet m.after.attributes n) := by
  refine ⟨fun o => diffSet_mem hB o, fun o => diffSet_mem hA o, ?_, ?_⟩
  · intro k
    rw [compare_objects_modified]
    rw [countP_filterMap_unique
        ((keyList A).filter (fun k => decide (k ∈ keyList B)))
        (List.Nodup.filter _ (keyList_nodup A))
        (modEntry A B) (fun m => object_key m.before)
        (fun k m h => (modEntry_key h).2.2.2.2) k]
    by_cases hka : k ∈ keyList A
    · by_cases hkb : k ∈ keyList B
      · obtain ⟨a, ha⟩ := Option.isSome_iff_exists.mp (mem_keyList_iff_lookup.mp hka)
        obtain ⟨b, hb⟩ := Option.isSome_iff_exists.mp (mem_keyList_iff_lookup.mp hkb)
        rw [ha, hb]
        have hmem : k ∈ (keyList A).filter (fun k => decide (k ∈ keyList B)) :=
          List.mem_filter.mpr ⟨hka, by simpa using hkb⟩
        by_cases hdiff : diff_attributes a b = []
        · have : (modEntry A B k).isSome = false := by
            unfold modEntry; rw [ha, hb]; simp [hdiff]
          simp [hmem, this, hdiff]
        · have : (modEntry A B k).isSome = true := by
            unfold modEntry; rw [ha, hb]; simp [hdiff]
          simp [hmem, this, hdiff]
      · have hno : keyLookup B k = none := by
          cases h : keyLookup B k with
          | none => rfl
          | some b => exact absurd (mem_keyList_iff_lookup.mpr (by rw [h]; rfl)) hkb
        have hmem : k ∉ (keyList A).filter (fun k => decide (k ∈ keyList B)) := by
          intro hc
          exact hkb (by simpa using (List.mem_filter.mp hc).2)
        rw [hno]
        cases h : keyLookup A k <;> simp [hmem]
    · have hno : keyLookup A k = none := by
        cases h : keyLookup A k with
        | none => rfl
        | some a => exact absurd (mem_keyList_iff_lookup.mpr (by rw [h]; rfl)) hka
      have hmem : k ∉ (keyList A).filter (fun k => decide (k ∈ keyList B)) := by
        intro hc
        exact hka (List.mem_filter.mp hc).1
      rw [hno]
      simp [hmem]
  · intro m hm
    rw [compare_objects_modified] at hm
    obtain ⟨k, hk, hfk⟩ := List.mem_filterMap.mp hm
    obtain ⟨ha, hb, hcf, hne, hkey⟩ := modEntry_key hfk
    subst hkey
    refine ⟨ha, hb, hne, fun n => ?_⟩
    rw [hcf]
    exact mem_diff_attributes

/-- Empty base graph for the C2 counterexample. -/
def c2cexA1 : SchemaGraph := SchemaGraph.init "a"

/-- Target graph holding two tables whose names differ only in case, so both
carry the same (lowercased) equivalence key. -/
def c2cexB1 : SchemaGraph :=
  (((SchemaGraph.init "b").add_vertex
      ⟨0, .table, "foo", some "public", []⟩).1.add_vertex
      ⟨0, .table, "Foo", some "public", []⟩).1

/-- The first stored vertex of c2cexB1 (id 1, name foo). -/
def c2cexFoo : DatabaseObject := ⟨1, .table, "foo", some "public", []⟩

/-- Graph A for the second counterexample input: the table attribute map
holds the name x with value None. -/
def c2cexA2 : SchemaGraph :=
  ((SchemaGraph.init "a").add_vertex
    ⟨0, .table, "t", some "public", [("x", .none)]⟩).1

/-- Graph B for the second counterexample input: x is absent altogether. -/
def c2cexB2 : SchemaGraph :=
  ((SchemaGraph.init "b").add_vertex ⟨0, .table, "t", some "public", []⟩).1

/-- C2 counterexample, two independent failures of the claim as stated.
First, with two vertices of graph B sharing one equivalence key (names foo
and Foo differing only in case), the key-indexing dict keeps only the later
vertex, so the object foo of B has a key that is not a key of A and yet is
not in objects_added even up to Python object equality.  Second, an
attribute present in only one of the two maps but with value None is not
reported: the two t tables disagree on the presence of x, yet
objects_modified is empty, against the claim that a key present in only one
map counts as changed. -/
theorem c2_counterexample :
    (c2cexFoo ∈ c2cexB1.objs ∧ object_key c2cexFoo ∉ keyList c2cexA1 ∧
      ¬ pyMem c2cexFoo (GraphComparator.compare c2cexA1 c2cexB1).objects_added)
    ∧ (keyList c2cexA2 = keyList c2cexB2 ∧
      (∃ a ∈ c2cexA2.objs, (a.attributes.lookup "x").isSome) ∧
      (∀ b ∈ c2cexB2.objs, b.attributes.lookup "x" = Option.none) ∧
      (GraphComparator.compare c2cexA2 c2cexB2).objects_modified = []) := by
  decide

/-- Graph with a single table for the C2 witness. -/
def c2wA : SchemaGraph :=
  ((SchemaGraph.init "a").add_vertex
    ⟨0, .table, "t", some "public", [("x", .str "1")]⟩).1

/-- Graph with a single matching table, one attribute changed. -/
def c2wB : SchemaGraph :=
  ((SchemaGraph.init "b").add_vertex
    ⟨0, .table, "t", some "public", [("x", .str "2")]⟩).1

/-- Witness instantiating the amended C2 theorem on concrete key-injective
graphs. -/
theorem c2_compare_delta_witness :
    KeysInjective c2wA ∧ KeysInjective c2wB ∧
      (∀ o, pyMem o (GraphComparator.compare c2wA c2wB).objects_added ↔
        ∃ x ∈ c2wB.objs, pyEq x o ∧ object_key x ∉ keyList c2wA) :=
  ⟨by decide, by decide, (c2_compare_delta c2wA c2wB (by decide) (by decide)).1⟩

/-- MatchResult (src/comparison/matcher.py, dataclass MatchResult). -/
structure MatchResult where
  pairs : List (Nat × Nat)
  unique_a : List Nat
  unique_b : List Nat
  deriving DecidableEq, Repr

/-- VertexMatcher configuration read from the config dict
(src/comparison/matcher.py, __init__): strict_keys defaults to True,
enable_experimental_matching to False, similarity_threshold to 0.8 and the
similarity weights to 0.6/0.4 (floats embedded as rationals). -/
structure MatcherConfig where
  strict_keys : Bool := true
  enable_experimental : Bool := false
  similarity_threshold : Rat := (8 : Rat) / 10
  weight_name : Rat := (6 : Rat) / 10
  weight_attributes : Rat := (4 : Rat) / 10

/-- Python f-string rendering of the Option-valued schema field. -/
def pyStrOpt : Option String → String
  | some s => s
  | none => "None"

/-- VertexMatcher._vertex_key (src/comparison/matcher.py, lines 137-158):
case-preserving string key type:schema:name; a column with a truthy table
attribute gains a :table: suffix, otherwise control falls through to the
constraint branch, which suffixes primary-key, unique and foreign-key
vertices carrying a truthy table or from_table attribute. -/
def vertex_key (v : DatabaseObject) : String :=
  let base := v.type.value ++ ":" ++ pyStrOpt v.schema ++ ":" ++ v.name
  let viaColumn : Option String :=
    if v.type = .column then
      let table := pyGet v.attributes "table"
      if table.pyTruthy then some (base ++ ":table:" ++ table.pyStr) else none
    else none
  match viaColumn with
  | some k => k
  | none =>
      if v.type = .primary_key ∨ v.type = .unique_constraint ∨ v.type = .foreign_key then
        let t := pyGet v.attributes "table"
        let table := if t.pyTruthy then t else pyGet v.attributes "from_table"
        if table.pyTruthy then base ++ ":table:" ++ table.pyStr else base
      else base

/-- Ids mapped to one key by VertexMatcher._build_key_mapping (insertion
order, collisions preserved as lists). -/
def key_ids (g : SchemaGraph) (k : String) : List Nat :=
  (g.vertices.filter (fun p => decide (vertex_key p.2 = k))).map Prod.fst

/-- Keys of the _build_key_mapping dict, in first-insertion order. -/
def mapping_keys (g : SchemaGraph) : List String :=
  (g.vertices.map (fun p => vertex_key p.2)).dedup

/-- Keys common to both mappings, the iteration domain of
match_by_key_pairs. -/
def common_keys (graph_a graph_b : SchemaGraph) : List String :=
  (mapping_keys graph_a).filter (fun k => decide (k ∈ mapping_keys graph_b))

/-- Lexicographic order on id pairs, the sort key of match_by_key_pairs. -/
def pairLe (p q : Nat × Nat) : Prop :=
  p.1 < q.1 ∨ (p.1 = q.1 ∧ p.2 ≤ q.2)

instance : DecidableRel pairLe := by
  unfold pairLe; infer_instance

/-- Loop body of VertexMatcher.match_by_key_pairs for one common key: under
strict_keys raise VertexMatchingError when either side holds more than one id
for the key; otherwise zip the two ascending-sorted id lists onto the
accumulator. -/
def mbkpStep (cfg : MatcherConfig) (graph_a graph_b : SchemaGraph)
    (acc : List (Nat × Nat)) (k : String) : Except String (List (Nat × Nat)) :=
  let ids_a := key_ids graph_a k
  let ids_b := key_ids graph_b k
  if cfg.strict_keys ∧ (ids_a.length ≠ 1 ∨ ids_b.length ≠ 1) then
    throw ("Key collision " ++ k ++ ": the strict mode requires unique keys")
  else
    pure (acc ++ (ids_a.insertionSort (· ≤ ·)).zip (ids_b.insertionSort (· ≤ ·)))

/-- VertexMatcher.match_by_key_pairs (src/comparison/matcher.py, lines
83-109): run the loop body over the common keys, then sort all pairs
lexicographically. -/
def match_by_key_pairs (cfg : MatcherConfig) (graph_a graph_b : SchemaGraph) :
    Except String (List (Nat × Nat)) := do
  let pairs ← (common_keys graph_a graph_b).foldlM (mbkpStep cfg graph_a graph_b) []
  pure (pairs.insertionSort pairLe)

/-- Longest common subsequence length, the basis of the modelled similarity
ratio.  Never evaluated by any theorem (experimental matching is disabled in
every claim). -/
def lcsLength : List Char → List Char → Nat
  | [], _ => 0
  | _, [] => 0
  | a :: as_, b :: bs =>
      if a = b then 1 + lcsLength as_ bs
      else max (lcsLength as_ (b :: bs)) (lcsLength (a :: as_) bs)
termination_by x y => x.length + y.length

/-- Models difflib.SequenceMatcher(None, x, y).ratio(), an external standard
library dependency of VertexMatcher._name_similarity: twice the matched
count over the total length, here with common-subsequence matching standing
in for difflib's matching blocks.  No theorem depends on its values. -/
def nameSimilarity (x y : String) : Rat :=
  let total := x.length + y.length
  if total = 0 then 1
  else (2 * (lcsLength (pyLower x).data (pyLower y).data) : Rat) / (total : Rat)

/-- VertexMatcher._attributes_similarity (src/comparison/matcher.py). -/
def attributesSimilarity (ax ay : Attrs) : Rat :=
  if ax.isEmpty ∧ ay.isEmpty then 1
  else if ax.isEmpty ∨ ay.isEmpty then 0
  else
    let keys_all := (ax.map Prod.fst ++ ay.map Prod.fst).dedup
    let keys_common := (ax.map Prod.fst).filter
      (fun k => decide (k ∈ ay.map Prod.fst))
    if keys_all.isEmpty then 0
    else
      let score := keys_common.foldl (fun (s : Rat) k =>
        let vx := pyGet ax k
        let vy := pyGet ay k
        if vx = vy then s + 1
        else match vx, vy with
          | .str sx, .str sy => s + nameSimilarity sx sy
          | _, _ => s) 0
      score / (keys_all.length : Rat)

/-- VertexMatcher._calculate_vertex_similarity (src/comparison/matcher.py). -/
def vertexSimilarity (cfg : MatcherConfig) (a b : DatabaseObject) : Rat :=
  if a.type ≠ b.type then 0
  else cfg.weight_name * nameSimilarity a.name b.name +
    cfg.weight_attributes * attributesSimilarity a.attributes b.attributes

/-- VertexMatcher._group_unmatched_by_type: the unmatched vertices of one
type, in insertion order. -/
def unmatchedOfType (g : SchemaGraph) (already : List Nat) (t : String) :
    List (Nat × DatabaseObject) :=
  g.vertices.filter (fun p =>
    decide (p.1 ∉ already) && decide (p.2.type.value = t))

/-- The type groups, in first-insertion order. -/
def unmatchedTypes (g : SchemaGraph) (already : List Nat) : List String :=
  ((g.vertices.filter (fun p => decide (p.1 ∉ already))).map
    (fun p => p.2.type.value)).dedup

/-- Greedy best-partner selection inside _match_experimentally: for each
candidate of A in order, the best still-free candidate of B at or above the
threshold. -/
def greedyPairs (cfg : MatcherConfig) (vertices_a vertices_b : List (Nat × DatabaseObject)) :
    List (Nat × Nat) :=
  (vertices_a.foldl (fun (st : List (Nat × Nat) × List Nat) va =>
    let (acc, matched_b) := st
    let best := vertices_b.foldl
      (fun (cur : Option (Nat × Rat)) vb =>
        if vb.1 ∈ matched_b then cur
        else
          let sim := vertexSimilarity cfg va.2 vb.2
          if sim ≥ cfg.similarity_threshold ∧
              sim > (match cur with | some c => c.2 | none => 0) then
            some (vb.1, sim)
          else cur) none
    match best with
    | some c => (acc ++ [(va.1, c.1)], matched_b ++ [c.1])
    | none => (acc, matched_b)) ([], [])).1

/-- VertexMatcher._match_experimentally (src/comparison/matcher.py, lines
164-205): per-type greedy similarity pairing of unmatched vertices, sorted. -/
def matchExperimentally (cfg : MatcherConfig) (graph_a graph_b : SchemaGraph)
    (already_a already_b : List Nat) : List (Nat × Nat) :=
  ((unmatchedTypes graph_a already_a).flatMap (fun t =>
    let vertices_a := unmatchedOfType graph_a already_a t
    let vertices_b := unmatchedOfType graph_b already_b t
    if vertices_b.isEmpty then []
    else greedyPairs cfg vertices_a vertices_b)).insertionSort pairLe

/-- VertexMatcher.match (src/comparison/matcher.py, lines 56-81), named
matchVertices because match is reserved in Lean: key-based pairs, unmatched
ids sorted per side, optionally extended by the experimental pass. -/
def matchVertices (cfg : MatcherConfig) (graph_a graph_b : SchemaGraph) :
    Except String MatchResult := do
  let pairs ← match_by_key_pairs cfg graph_a graph_b
  let paired_a := pairs.map Prod.fst
  let paired_b := pairs.map Prod.snd
  let unique_a := (graph_a.ids.dedup.filter
    (fun i => decide (i ∉ paired_a))).insertionSort (· ≤ ·)
  let unique_b := (graph_b.ids.dedup.filter
    (fun i => decide (i ∉ paired_b))).insertionSort (· ≤ ·)
  if cfg.enable_experimental then
    let extra := matchExperimentally cfg graph_a graph_b paired_a paired_b
    let pairs := pairs ++ extra
    let paired_a := pairs.map Prod.fst
    let paired_b := pairs.map Prod.snd
    pure (MatchResult.mk pairs
      ((graph_a.ids.dedup.filter
        (fun i => decide (i ∉ paired_a))).insertionSort (· ≤ ·))
      ((graph_b.ids.dedup.filter
        (fun i => decide (i ∉ paired_b))).insertionSort (· ≤ ·)))
  else
    pure (MatchResult.mk pairs unique_a unique_b)

theorem foldlM_except_error {α β : Type} (f : β → α → Except String β)
    (l : List α) (hx : ∃ x ∈ l, ∀ acc, ∃ e, f acc x = .error e) :
    ∀ acc, ∃ e, l.foldlM f acc = .error e := by
  induction l with
  | nil => rcases hx with ⟨x, hx, _⟩; simp at hx
  | cons a rest ih =>
      intro acc
      obtain ⟨x, hxl, hthrow⟩ := hx
      cases hfa : f acc a with
      | error e =>
          refine ⟨e, ?_⟩
          rw [List.foldlM_cons, hfa]
          rfl
      | ok acc2 =>
          rcases List.mem_cons.mp hxl with rfl | hxr
          · obtain ⟨e, he⟩ := hthrow acc
            rw [hfa] at he
            cases he
          · obtain ⟨e, he⟩ := ih ⟨x, hxr, hthrow⟩ acc2
            refine ⟨e, ?_⟩
            rw [List.foldlM_cons, hfa]
            simpa using he

theorem foldlM_nonstrict (graph_a graph_b : SchemaGraph) (cfg : MatcherConfig)
    (hcfg : cfg.strict_keys = false) :
    ∀ (l : List String) (acc : List (Nat × Nat)),
      l.foldlM (mbkpStep cfg graph_a graph_b) acc =
        .ok (acc ++ l.flatMap (fun k =>
          ((key_ids graph_a k).insertionSort (· ≤ ·)).zip
            ((key_ids graph_b k).insertionSort (· ≤ ·)))) := by
  intro l
  induction l with
  | nil =>
      intro acc
      rw [List.foldlM_nil, List.flatMap_nil, List.append_nil]
      rfl
  | cons a rest ih =>
      intro acc
      rw [List.foldlM_cons]
      have hstep : mbkpStep cfg graph_a graph_b acc a =
          pure (acc ++ ((key_ids graph_a a).insertionSort (· ≤ ·)).zip
            ((key_ids graph_b a).insertionSort (· ≤ ·))) := by
        unfold mbkpStep
        rw [if_neg]
        intro hc
        rw [hcfg] at hc
        exact Bool.false_ne_true hc.1
      rw [hstep]
      show rest.foldlM (mbkpStep cfg graph_a graph_b) _ = _
      rw [ih]
      simp [List.flatMap_cons, List.append_assoc]

end MigrationDetector

namespace MigrationDetector

/-- C5 (amended): under strict matching (the default configuration), a key
COMMON TO BOTH GRAPHS that maps to more than one vertex on either side makes
VertexMatcher.match fail with a VertexMatching error; a key duplicated within
one graph only, and absent from the other, is not detected.  With strict mode
disabled, the key-based pass pairs the ids of each common key positionally
after sorting each side ascending, which yields min of the two multiplicities
pairs for that key. -/
theorem c5_match_strict_and_nonstrict :
    (∀ graph_a graph_b : SchemaGraph,
      (∃ k ∈ common_keys graph_a graph_b,
          (key_ids graph_a k).length ≠ 1 ∨ (key_ids graph_b k).length ≠ 1) →
      ∃ e, matchVertices {} graph_a graph_b = .error e)
    ∧ (∀ graph_a graph_b : SchemaGraph,
        match_by_key_pairs { strict_keys := false } graph_a graph_b =
          .ok (((common_keys graph_a graph_b).flatMap (fun k =>
            ((key_ids graph_a k).insertionSort (· ≤ ·)).zip
              ((key_ids graph_b k).insertionSort (· ≤ ·)))).insertionSort pairLe)
        ∧ ∀ k, (((key_ids graph_a k).insertionSort (· ≤ ·)).zip
              ((key_ids graph_b k).insertionSort (· ≤ ·))).length =
            min (key_ids graph_a k).length (key_ids graph_b k).length) := by
  constructor
  · intro graph_a graph_b hcol
    obtain ⟨k, hk, hlen⟩ := hcol
    have hthrow : ∀ acc, ∃ e,
        mbkpStep {} graph_a graph_b acc k = .error e := by
      intro acc
      refine ⟨"Key collision " ++ k ++ ": the strict mode requires unique keys", ?_⟩
      unfold mbkpStep
      rw [if_pos ⟨rfl, hlen⟩]
      rfl
    obtain ⟨e, he⟩ :=
      foldlM_except_error (mbkpStep {} graph_a graph_b) _ ⟨k, hk, hthrow⟩ []
    refine ⟨e, ?_⟩
    unfold matchVertices match_by_key_pairs
    rw [he]
    rfl
  · intro graph_a graph_b
    constructor
    · unfold match_by_key_pairs
      rw [foldlM_nonstrict graph_a graph_b _ rfl]
      rfl
    · intro k
      rw [List.length_zip,
        (List.perm_insertionSort _ _).length_eq,
        (List.perm_insertionSort _ _).length_eq]

/-- Graph with two vertices sharing the key table:public:t. -/
def c5gA : SchemaGraph :=
  (((SchemaGraph.init "a").add_vertex
      ⟨0, .table, "t", some "public", []⟩).1.add_vertex
      ⟨0, .table, "t", some "public", []⟩).1

/-- Graph sharing that key once, making it a common key. -/
def c5gB : SchemaGraph :=
  ((SchemaGraph.init "b").add_vertex ⟨0, .table, "t", some "public", []⟩).1

/-- C5 counterexample: graph A holds the duplicated key table:public:t twice
while graph B holds no vertex at all, so the key is not common; strict
VertexMatcher.match then returns a MatchResult instead of failing, against
the claim that any within-graph duplicate is a fatal matching error. -/
theorem c5_counterexample :
    (key_ids c5gA "table:public:t").length = 2 ∧
      matchVertices {} c5gA (SchemaGraph.init "b") =
        .ok (MatchResult.mk [] [1, 2] []) := by
  decide

/-- Witness instantiating the amended C5 theorem: the duplicated key is
common to both graphs, and strict matching fails. -/
theorem c5_match_witness :
    (∃ k ∈ common_keys c5gA c5gB,
        (key_ids c5gA k).length ≠ 1 ∨ (key_ids c5gB k).length ≠ 1) ∧
      ∃ e, matchVertices {} c5gA c5gB = .error e :=
  ⟨by decide, c5_match_strict_and_nonstrict.1 c5gA c5gB (by decide)⟩

/-- The equivalence key exactly as claim C6 states it: lowercased schema,
object type, lowercased owning table (non-empty exactly for Column,
PrimaryKey, UniqueConstraint and ForeignKey vertices carrying a table or
from_table attribute), lowercased name. -/
def claimed_equivalence_key (o : DatabaseObject) :
    String × String × String × String :=
  let table :=
    if o.type = .column ∨ o.type = .primary_key ∨
        o.type = .unique_constraint ∨ o.type = .foreign_key then
      match o.attributes.lookup "table" with
      | some v => pyLower v.pyStr
      | none =>
          match o.attributes.lookup "from_table" with
          | some v => pyLower v.pyStr
          | none => ""
    else ""
  (pyLower (orPublic o.schema), o.type.value, table, pyLower o.name)

/-- The comparator key as the amended claim words it: lowercased schema
defaulting to public, the object-type string, the lowercased stringified
table attribute for columns only (absent defaulting to the empty string,
all other kinds empty), and the lowercased name. -/
def amended_comparator_key (o : DatabaseObject) :
    String × String × String × String :=
  (pyLower (orPublic o.schema), o.type.value,
    if o.type.value = "column" then
      pyLower ((o.attributes.lookup "table").getD (.str "")).pyStr
    else "",
    pyLower o.name)

/-- The matcher key as the amended claim words it: the case-preserving
string type:schema:name, with a :table:{t} suffix appended for a Column with
a truthy table attribute, and for a PrimaryKey, UniqueConstraint or
ForeignKey whose table-or-from_table attribute is truthy. -/
def amended_matcher_key (o : DatabaseObject) : String :=
  let base := o.type.value ++ ":" ++ pyStrOpt o.schema ++ ":" ++ o.name
  let constraint_table :=
    let t := pyGet o.attributes "table"
    if t.pyTruthy then t else pyGet o.attributes "from_table"
  if o.type = .column ∧ (pyGet o.attributes "table").pyTruthy then
    base ++ ":table:" ++ (pyGet o.attributes "table").pyStr
  else if (o.type = .primary_key ∨ o.type = .unique_constraint ∨
      o.type = .foreign_key) ∧ constraint_table.pyTruthy then
    base ++ ":table:" ++ constraint_table.pyStr
  else base

/-- Primary-key vertex owned by table T, for the C6 counterexample. -/
def c6pk1 : DatabaseObject :=
  ⟨1, .primary_key, "pk_t", some "public", [("table", .str "T")]⟩

/-- An equally named primary-key vertex owned by table S. -/
def c6pk2 : DatabaseObject :=
  ⟨2, .primary_key, "pk_t", some "public", [("table", .str "S")]⟩

/-- C6 counterexample: on a PrimaryKey vertex carrying a table attribute,
the comparator key leaves the owning-table component empty, against the
claimed key shape; and two such vertices owned by different tables collapse
to one comparator key while the matcher distinguishes them, so the two
components do not compute the same key. -/
theorem c6_counterexample :
    object_key c6pk1 ≠ claimed_equivalence_key c6pk1 ∧
      object_key c6pk1 = object_key c6pk2 ∧
      vertex_key c6pk1 ≠ vertex_key c6pk2 := by
  decide

/-- C6 (amended): the comparator keys vertices by lowercased schema
defaulting to public, object type, lowercased table attribute for Columns
only (empty for every other kind), and lowercased name; the standalone
matcher keys vertices by the case-preserving string type:schema:name with a
table suffix for Column, PrimaryKey, UniqueConstraint and ForeignKey
vertices carrying a truthy table (or from_table) attribute; the two
computations are not the same key function, differing on constraint
vertices that carry a table attribute. -/
theorem c6_equivalence_keys :
    (∀ o, object_key o = amended_comparator_key o)
    ∧ (∀ o, vertex_key o = amended_matcher_key o)
    ∧ (∃ o1 o2, object_key o1 = object_key o2 ∧ vertex_key o1 ≠ vertex_key o2) := by
  refine ⟨fun o => rfl, fun o => ?_, ⟨c6pk1, c6pk2, by decide, by decide⟩⟩
  unfold vertex_key amended_matcher_key
  by_cases hcol : o.type = .column
  · simp only [hcol]
    by_cases htruthy : (pyGet o.attributes "table").pyTruthy
    · simp [htruthy]
    · have hno : ¬ (o.type = .primary_key ∨ o.type = .unique_constraint ∨
          o.type = .foreign_key) := by
        rw [hcol]; rintro (h | h | h) <;> cases h
      simp [hcol, htruthy, hno]
  · simp only [if_neg hcol]
    by_cases hcon : o.type = .primary_key ∨ o.type = .unique_constraint ∨
        o.type = .foreign_key
    · have : ¬ (o.type = .column ∧ (pyGet o.attributes "table").pyTruthy) :=
        fun hc => hcol hc.1
      by_cases htruthy :
          (let t := pyGet o.attributes "table"
           if t.pyTruthy then t else pyGet o.attributes "from_table").pyTruthy
      · simp [this, hcon, htruthy]
      · simp [this, hcon, htruthy]
    · have h1 : ¬ (o.type = .column ∧ (pyGet o.attributes "table").pyTruthy) :=
        fun hc => hcol hc.1
      simp [h1, hcon]

/-- Values appearing in a conflict's details dict. -/
inductive DetailValue where
  | str (s : String)
  | nat (n : Nat)
  | none
  | bool (b : Bool)
  | fk (f : FKInfo)
  | fkList (l : List FKInfo)
  deriving DecidableEq, Repr

/-- An attribute value moved verbatim into a details dict. -/
def DetailValue.ofAttr : AttrValue → DetailValue
  | .str s => .str s
  | .bool b => .bool b
  | .none => .none
  | .fk f => .fk f
  | .fkList l => .fkList l

/-- Conflict record as the rules build it (a Python dict with keys rule,
level, message, details); rule_name and rule_info are the keys the rule
post-processing and the registry may add, rule_info holding the id of the
rule whose static metadata dict (BaseRule.get_info) was attached. -/
structure Conflict where
  rule : String
  level : String
  message : String
  details : List (String × DetailValue)
  rule_name : Option String := Option.none
  rule_info : Option String := Option.none
  deriving DecidableEq, Repr

/-- RuleR1.apply, per removed object (src/rules/rule_r1.py): a removed table
whose table (itself, via get_table_of_object on graph A) has at least one
incoming References edge from another vertex. -/
def ruleR1Check (graph_a : SchemaGraph) (removed : DatabaseObject) :
    Option Conflict :=
  if removed.type ≠ .table then Option.none
  else
    match graph_a.get_table_of_object removed with
    | Option.none => Option.none
    | some table =>
        let incoming_refs := graph_a.edges.filter (fun e =>
          decide (e.relation = .references ∧ e.dst = table.id ∧ e.src ≠ table.id))
        if incoming_refs.isEmpty then Option.none
        else some
          { rule := "R1", level := "critical",
            message := "Таблица '" ++ table.name ++
              "' удалена, но в исходной версии схемы на неё существуют внешние ссылки.",
            details := [("table", .str table.name),
              ("incoming_refs", .nat incoming_refs.length)] }

/-- RuleR1.apply (src/rules/rule_r1.py): at most one conflict per removed
object. -/
def ruleR1Apply (delta : Delta) (graph_a _graph_b : SchemaGraph) : List Conflict :=
  delta.objects_removed.filterMap (ruleR1Check graph_a)

/-- The hard-coded incompatible (old, new) type pairs of rule R2
(src/rules/rule_r2.py, lines 12-16). -/
def INCOMPATIBLE_TYPES : List (String × String) :=
  [("TEXT", "INTEGER"), ("VARCHAR", "INTEGER"), ("NUMERIC", "INTEGER")]

/-- RuleR2.apply, per modified column (src/rules/rule_r2.py, lines 33-94):
only data_type changes whose uppercased (old, new) pair is in the
incompatible set, on a column whose owning table in graph B has incoming
References edges. -/
def ruleR2Check (graph_b : SchemaGraph) (mod : ModifiedObject) : Option Conflict :=
  match mod.changed_fields.contains "data_type" with
  | false => Option.none
  | true =>
    let old_type := pyUpper ((mod.before.attributes.lookup "data_type").getD (.str "")).pyStr
    let new_type := pyUpper ((mod.after.attributes.lookup "data_type").getD (.str "")).pyStr
    match old_type.isEmpty || new_type.isEmpty with
    | true => Option.none
    | false =>
      match INCOMPATIBLE_TYPES.contains (old_type, new_type) with
      | false => Option.none
      | true =>
        match graph_b.get_table_of_object mod.after with
        | Option.none => Option.none
        | some table_obj =>
          let incoming_refs := graph_b.get_incoming table_obj (some .references)
          match incoming_refs.isEmpty with
          | true => Option.none
          | false => some
            { rule := "R2", level := "high",
              message := "Несовместимое изменение типа колонки " ++
                table_obj.name ++ "." ++ mod.after.name ++ ": " ++
                old_type ++ " → " ++ new_type ++ " при наличии внешних ссылок",
              details := [("table", .str table_obj.name),
                ("column", .str mod.after.name),
                ("old_type", .str old_type),
                ("new_type", .str new_type),
                ("incoming_references", .nat incoming_refs.length)] }

/-- RuleR2.apply (src/rules/rule_r2.py). -/
def ruleR2Apply (delta : Delta) (_graph_a graph_b : SchemaGraph) : List Conflict :=
  (delta.modified_by_type .column).filterMap (ruleR2Check graph_b)

/-- RuleR3.apply, per removed object (src/rules/rule_r3.py): a removed table
with incoming or outgoing References edges in graph A. -/
def ruleR3Check (graph_a : SchemaGraph) (obj : DatabaseObject) : Option Conflict :=
  if obj.type ≠ .table then Option.none
  else
    let incoming := graph_a.get_incoming obj (some .references)
    let outgoing := graph_a.get_outgoing obj (some .references)
    if incoming.isEmpty ∧ outgoing.isEmpty then Option.none
    else some
      { rule := "R3", level := "high",
        message := "Удалена таблица " ++ obj.name ++
          ", участвовавшая во внешних связях",
        details := [("table", .str obj.name),
          ("incoming_refs", .nat incoming.length),
          ("outgoing_refs", .nat outgoing.length)] }

/-- RuleR3.apply (src/rules/rule_r3.py). -/
def ruleR3Apply (delta : Delta) (graph_a _graph_b : SchemaGraph) : List Conflict :=
  delta.objects_removed.filterMap (ruleR3Check graph_a)

/-- RuleR4.apply, per removed object (src/rules/rule_r4.py): any removed
primary-key, unique or foreign-key object. -/
def ruleR4Check (obj : DatabaseObject) : Option Conflict :=
  if obj.type = .primary_key ∨ obj.type = .unique_constraint ∨
      obj.type = .foreign_key then
    some
      { rule := "R4", level := "high",
        message := "Удалено ограничение " ++ obj.name,
        details := [("constraint", .str obj.name),
          ("type", .str obj.type.value),
          ("table", .ofAttr
            (let t := pyGet obj.attributes "table"
             if t.pyTruthy then t else pyGet obj.attributes "from_table"))] }
  else Option.none

/-- RuleR4.apply (src/rules/rule_r4.py). -/
def ruleR4Apply (delta : Delta) (_graph_a _graph_b : SchemaGraph) : List Conflict :=
  delta.objects_removed.filterMap ruleR4Check

/-- RuleR5.apply (src/rules/rule_r5.py): one conflict per modified
primary-key object. -/
def ruleR5Apply (delta : Delta) (_graph_a _graph_b : SchemaGraph) : List Conflict :=
  (delta.modified_by_type .primary_key).map (fun mod =>
    { rule := "R5", level := "critical",
      message := "Primary key of table " ++
        (pyGet mod.after.attributes "table").pyStr ++ " was modified",
      details := [("table", .ofAttr (pyGet mod.after.attributes "table"))] })

/-- RuleR6.apply (src/rules/rule_r6.py, lines 18-42): a modified column whose
is_nullable attribute is True before and False after, with no default
attribute after the change.  Building the conflict message calls
mod.after.get_full_name(), a method neither DatabaseObject nor Column
defines, so a firing condition raises AttributeError instead of reporting
(the registry later swallows the error and the rule contributes nothing). -/
def ruleR6Apply (delta : Delta) (_graph_a _graph_b : SchemaGraph) :
    Except String (List Conflict) :=
  (delta.modified_by_type .column).foldlM (fun acc mod =>
    if "is_nullable" ∉ mod.changed_fields then pure acc
    else if pyGet mod.before.attributes "is_nullable" = .bool true ∧
        pyGet mod.after.attributes "is_nullable" = .bool false ∧
        (mod.after.attributes.lookup "default").isNone then
      throw "AttributeError: object has no attribute get_full_name"
    else pure acc) ([] : List Conflict)

/-- Whether SchemaGraph (src/graph/schema_graph.py) defines find_cycles:
it does not, and no other definition in the repository provides one, so the
hasattr guard inside RuleR7.apply is always False. -/
def schemaGraphHasFindCycles : Bool := false

/-- RuleR7.apply (src/rules/rule_r7.py, lines 17-32): cycles come from
graph_b.find_cycles() when the graph has that attribute and from the empty
list otherwise; each cycle would then be reported through get_full_name(),
a method DatabaseObject does not define, so the loop body would raise
AttributeError if it were ever reached. -/
def ruleR7Apply (_delta : Delta) (_graph_a _graph_b : SchemaGraph) :
    Except String (List Conflict) :=
  let cycles : List (List DatabaseObject) :=
    if schemaGraphHasFindCycles then [] else []
  cycles.foldlM (fun _acc _cycle =>
    throw "AttributeError: object has no attribute get_full_name")
    ([] : List Conflict)

/-- C1 (code bug): RuleR7.apply never returns a conflict, whatever the delta
and graphs: SchemaGraph defines no find_cycles, so the hasattr guard always
selects the empty cycle list, and the Critical cycle conflicts the rule is
documented to emit (including for two tables referencing each other in
schema B) can never be produced. -/
theorem c1_ruleR7_never_reports :
    ∀ (delta : Delta) (graph_a graph_b : SchemaGraph),
      ruleR7Apply delta graph_a graph_b = .ok [] :=
  fun _ _ _ => rfl

/-- Table vertex of the R2 scenario graphs. -/
def c3table : DatabaseObject :=
  ⟨1, .table, "t", some "public",
    [("foreign_keys", .fkList []), ("raw_sql", .str "create table t")]⟩

/-- Column vertex of the R2 scenario graphs, with the given declared type. -/
def c3column (dt : String) : DatabaseObject :=
  ⟨2, .column, "c", some "public", [("data_type", .str dt), ("table", .str "t")]⟩

/-- Scenario graph: table t (vertex 1) containing column c (vertex 2), and a
foreign-key vertex (3) with a References edge into t, so the owning table
has exactly one incoming reference. -/
def c3graph (dt : String) : SchemaGraph :=
  { name := "schema", next_id := 4,
    vertices := [(1, c3table), (2, c3column dt),
      (3, ⟨3, .foreign_key, "fk_u_t", some "public",
        [("from_table", .str "u"), ("to_table", .str "t")]⟩)],
    edges := [Edge.mk 2 1 .contains, Edge.mk 3 1 .references] }

/-- Delta recording the column type change from old to new. -/
def c3delta (oldT newT : String) : Delta :=
  { objects_added := [], objects_removed := [],
    objects_modified := [⟨c3column oldT, c3column newT, ["data_type"]⟩],
    edges_added := [], edges_removed := [] }

/-- The single conflict R2 produces for the TEXT-to-INTEGER scenario. -/
def c3conflictTI : Conflict :=
  { rule := "R2", level := "high",
    message := "Несовместимое изменение типа колонки t.c: TEXT → INTEGER при наличии внешних ссылок",
    details := [("table", .str "t"), ("column", .str "c"),
      ("old_type", .str "TEXT"), ("new_type", .str "INTEGER"),
      ("incoming_references", .nat 1)] }

/-- C3 counterexample: the column type change INTEGER to VARCHAR, on a column
whose owning table in graph B has one incoming References edge, produces no
R2 conflict at all — the hard-coded pair set holds (VARCHAR, INTEGER), not
(INTEGER, VARCHAR) — against the claimed Critical conflict. -/
theorem c3_counterexample :
    ruleR2Apply (c3delta "INTEGER" "VARCHAR")
        (c3graph "INTEGER") (c3graph "VARCHAR") = []
    ∧ ((c3graph "VARCHAR").get_incoming c3table (some .references)).length = 1 := by
  decide

theorem ruleR2Check_shape {graph_b : SchemaGraph} {mod : ModifiedObject}
    {c : Conflict} (h : ruleR2Check graph_b mod = some c) :
    c.rule = "R2" ∧ c.level = "high" := by
  unfold ruleR2Check at h
  repeat' (first | split at h | (dsimp only at h))
  all_goals try cases h
  all_goals exact ⟨rfl, rfl⟩

/-- C3 (amended): R2 only ever fires on the hard-coded pairs TEXT, VARCHAR
or NUMERIC changing to INTEGER and always emits level high, never Critical;
with an incoming References edge on the owning table, INTEGER to VARCHAR and
INTEGER to BIGINT both produce no conflict, while TEXT to INTEGER produces
exactly one High conflict naming the table and column. -/
theorem c3_ruleR2_behaviour :
    (∀ (delta : Delta) (graph_a graph_b : SchemaGraph),
        ∀ c ∈ ruleR2Apply delta graph_a graph_b, c.rule = "R2" ∧ c.level = "high")
    ∧ ruleR2Apply (c3delta "INTEGER" "VARCHAR")
        (c3graph "INTEGER") (c3graph "VARCHAR") = []
    ∧ ruleR2Apply (c3delta "INTEGER" "BIGINT")
        (c3graph "INTEGER") (c3graph "BIGINT") = []
    ∧ ruleR2Apply (c3delta "TEXT" "INTEGER")
        (c3graph "TEXT") (c3graph "INTEGER") = [c3conflictTI] := by
  refine ⟨?_, by decide, by decide, by decide⟩
  intro delta graph_a graph_b c hc
  obtain ⟨mod, _, hmod⟩ := List.mem_filterMap.mp hc
  exact ruleR2Check_shape hmod

/-- Witness instantiating the amended C3 theorem at the TEXT-to-INTEGER
conflict. -/
theorem c3_ruleR2_witness :
    c3conflictTI ∈ ruleR2Apply (c3delta "TEXT" "INTEGER")
        (c3graph "TEXT") (c3graph "INTEGER") ∧
      c3conflictTI.rule = "R2" ∧ c3conflictTI.level = "high" :=
  ⟨by decide,
   c3_ruleR2_behaviour.1 (c3delta "TEXT" "INTEGER")
     (c3graph "TEXT") (c3graph "INTEGER") c3conflictTI (by decide)⟩

/-- C10: SchemaGraph.add_edge rejects any edge whose endpoints are not both
stored vertices, and since no operation removes or renumbers vertices, every
graph reachable through the public operations satisfies the invariant that
each edge's src and dst are ids present in the vertex map. -/
theorem c10_add_edge_invariant :
    (∀ (g : SchemaGraph) (s d : Nat) (r : RelationType),
        (s ∉ g.ids ∨ d ∉ g.ids) →
        ∃ msg, g.add_edge s d r = .error msg)
    ∧ (∀ g : SchemaGraph, Reachable g →
        ∀ e ∈ g.edges, e.src ∈ g.ids ∧ e.dst ∈ g.ids) := by
  constructor
  · intro g s d r h
    refine ⟨"Both vertices must exist before adding an edge", ?_⟩
    unfold SchemaGraph.add_edge
    rw [if_neg]
    intro hc
    rcases h with h | h
    · exact h hc.1
    · exact h hc.2
  · intro g hg
    induction hg with
    | init name => intro e he; simp [SchemaGraph.init] at he
    | @add_vertex g obj _ ih =>
        intro e he
        have he' : e ∈ g.edges := by simpa [SchemaGraph.add_vertex] using he
        have hm := ih e he'
        rw [ids_add_vertex]
        exact ⟨List.mem_append_left _ hm.1, List.mem_append_left _ hm.2⟩
    | @add_edge g g' s d r _ hok ih =>
        intro e he
        obtain ⟨hs, hd, hids, hedges⟩ := add_edge_ok_elim hok
        rw [hids]
        rcases hedges e he with h1 | h2
        · exact ih e h1
        · subst h2; exact ⟨hs, hd⟩
/-- Token types (src/parser/tokenizer.py, class TokenType). -/
inductive TokenType where
  | keyword | identifier | quoted_identifier | string | number
  | type | constraint
  | operator | comma | dot | semicolon | lparen | rparen
  | whitespace | newline | comment
  | eof
  deriving DecidableEq, Repr

/-- Token (src/parser/tokenizer.py, dataclass Token); the Python string value
is embedded as its character list. -/
structure Token where
  type : TokenType
  value : List Char
  line : Nat
  column : Nat
  position : Nat
  deriving DecidableEq, Repr

/-- The whitespace class of the tokenizer's WHITESPACE pattern: space, tab,
formfeed and vertical tab, newlines excluded. -/
def isTokWs (c : Char) : Bool :=
  c = ' ' || c = '\t' || c = '\x0c' || c = '\x0b'

/-- Literal-prefix consumption: some rest when the literal heads the input. -/
def dropLit : List Char → List Char → Option (List Char)
  | [], cs => some cs
  | _, [] => Option.none
  | l :: ls, c :: cs => if c = l then dropLit ls cs else Option.none

/-- Scan of a quoted literal body with doubled-quote escapes, mirroring the
backtracking of the regex quote (non-quote or doubled-quote)* quote: after
the opening quote, returns the consumed body including the closing quote,
preferring to read a doubled quote as an escape and falling back to closing
when the longer reading finds no final quote. -/
def scanQuoted (q : Char) : List Char → Option (List Char × List Char)
  | [] => Option.none
  | c :: cs =>
      if c = q then
        match cs with
        | c2 :: cs2 =>
            if c2 = q then
              match scanQuoted q cs2 with
              | some (v, r) => some (c :: c2 :: v, r)
              | Option.none => some ([c], cs)
            else some ([c], cs)
        | [] => some ([c], cs)
      else
        (scanQuoted q cs).map (fun p => (c :: p.1, p.2))

/-- Scan to the closing star-slash of a block comment (lazy match), returning
the consumed characters including the terminator. -/
def blockEnd : List Char → Option (List Char × List Char)
  | '*' :: '/' :: r => some (['*', '/'], r)
  | c :: r => (blockEnd r).map (fun p => (c :: p.1, p.2))
  | [] => Option.none

/-- The multi-character operator alternatives, in the exact order of the
source pattern (first match wins, as in regex alternation). -/
def MULTI_OPS : List (List Char) :=
  [['<', '='], ['>', '='], ['<', '>'], ['!', '='], ['~', '='],
   ['!', '~', '*'], ['!', '~'], ['~', '*'], ['~'],
   ['|', '|'], ['|', '/'], ['|', '|', '/'],
   ['@', '>'], ['<', '@'], ['&', '&'], ['<', '<'], ['>', '>']]

/-- The single-character operator class of the source pattern. -/
def SINGLE_OP_CHARS : List Char :=
  ['=', '<', '>', '!', '@', '#', '%', '^', '&', '|', '*', '/', '+', '-']

/-- Line comment: two dashes to (excluding) the next newline. -/
def matchLineComment (cs : List Char) : Option (List Char × List Char) :=
  match dropLit ['-', '-'] cs with
  | some rest =>
      some ('-' :: '-' :: rest.takeWhile (fun c => !(c = '\n')),
        rest.dropWhile (fun c => !(c = '\n')))
  | Option.none => Option.none

/-- Block comment: slash-star lazily to the first star-slash; no match
without a terminator. -/
def matchBlockComment (cs : List Char) : Option (List Char × List Char) :=
  match dropLit ['/', '*'] cs with
  | some rest => (blockEnd rest).map (fun p => ('/' :: '*' :: p.1, p.2))
  | Option.none => Option.none

/-- Newline alternatives in source order: CRLF, CR, LF. -/
def matchNewline (cs : List Char) : Option (List Char × List Char) :=
  match dropLit ['\r', '\n'] cs with
  | some r => some (['\r', '\n'], r)
  | Option.none =>
    match dropLit ['\r'] cs with
    | some r => some (['\r'], r)
    | Option.none =>
      match dropLit ['\n'] cs with
      | some r => some (['\n'], r)
      | Option.none => Option.none

/-- Horizontal whitespace run. -/
def matchWhitespace (cs : List Char) : Option (List Char × List Char) :=
  let ws := cs.takeWhile isTokWs
  if ws.isEmpty then Option.none else some (ws, cs.dropWhile isTokWs)

/-- Single-quoted string literal with doubled-quote escaping. -/
def matchString (cs : List Char) : Option (List Char × List Char) :=
  match dropLit ['\''] cs with
  | some rest => (scanQuoted '\'' rest).map (fun p => ('\'' :: p.1, p.2))
  | Option.none => Option.none

/-- Double-quoted identifier literal with doubled-quote escaping. -/
def matchQuotedIdent (cs : List Char) : Option (List Char × List Char) :=
  match dropLit ['"'] cs with
  | some rest => (scanQuoted '"' rest).map (fun p => ('"' :: p.1, p.2))
  | Option.none => Option.none

/-- Numeric literal: the decimal alternative (digits dot digits) precedes the
integer one, as in the source pattern order. -/
def matchNumber (cs : List Char) : Option (List Char × List Char) :=
  let d1 := cs.takeWhile Char.isDigit
  if d1.isEmpty then Option.none
  else
    let r1 := cs.dropWhile Char.isDigit
    match r1 with
    | c0 :: r2 =>
        if c0 = '.' then
          let d2 := r2.takeWhile Char.isDigit
          if d2.isEmpty then some (d1, r1)
          else some (d1 ++ c0 :: d2, r2.dropWhile Char.isDigit)
        else some (d1, r1)
    | [] => some (d1, r1)

/-- First multi-operator literal heading the input. -/
def matchMultiOp (cs : List Char) : Option (List Char × List Char) :=
  MULTI_OPS.foldl (fun acc lit =>
    match acc with
    | some r => some r
    | Option.none =>
        match dropLit lit cs with
        | some rest => some (lit, rest)
        | Option.none => Option.none) Option.none

/-- One character of the single-operator class. -/
def matchSingleOp (cs : List Char) : Option (List Char × List Char) :=
  match cs with
  | c :: rest => if SINGLE_OP_CHARS.contains c then some ([c], rest) else Option.none
  | [] => Option.none

/-- One fixed punctuation character. -/
def matchChar (ch : Char) (cs : List Char) : Option (List Char × List Char) :=
  match cs with
  | c :: rest => if c = ch then some ([c], rest) else Option.none
  | [] => Option.none

/-- Identifier-continuation characters. -/
def isIdentRest (c : Char) : Bool := c.isAlphanum || c = '_'

/-- Identifier: a letter or underscore then letters, digits, underscores. -/
def matchIdent (cs : List Char) : Option (List Char × List Char) :=
  match cs with
  | c :: rest =>
      if c.isAlpha || c = '_' then
        some (c :: rest.takeWhile isIdentRest, rest.dropWhile isIdentRest)
      else Option.none
  | [] => Option.none

/-- The composed master pattern of SQLTokenizer (src/parser/tokenizer.py,
_TOKEN_SPECS): the alternatives in source order, first match winning as in
regex alternation, each tagged with its raw token type. -/
def TOKEN_SPECS : List (TokenType × (List Char → Option (List Char × List Char))) :=
  [(.comment, matchLineComment), (.comment, matchBlockComment),
   (.newline, matchNewline), (.whitespace, matchWhitespace),
   (.string, matchString), (.quoted_identifier, matchQuotedIdent),
   (.number, matchNumber), (.operator, matchMultiOp),
   (.operator, matchSingleOp),
   (.comma, matchChar ','), (.dot, matchChar '.'),
   (.semicolon, matchChar ';'),
   (.lparen, matchChar '('), (.rparen, matchChar ')'),
   (.identifier, matchIdent)]

/-- One attempt of the master pattern at the current position. -/
def masterMatch (cs : List Char) : Option (TokenType × List Char × List Char) :=
  TOKEN_SPECS.foldl (fun acc spec =>
    match acc with
    | some r => some r
    | Option.none => (spec.2 cs).map (fun p => (spec.1, p.1, p.2))) Option.none

theorem dropLit_spec {lit : List Char} :
    ∀ {cs rest : List Char}, dropLit lit cs = some rest → cs = lit ++ rest := by
  induction lit with
  | nil =>
      intro cs rest h
      simp only [dropLit, Option.some.injEq] at h
      rw [h]
      rfl
  | cons l ls ih =>
      intro cs rest h
      cases cs with
      | nil => cases h
      | cons c cs2 =>
          unfold dropLit at h
          split at h
          case isTrue hceq => rw [List.cons_append, ← ih h, hceq]
          case isFalse => cases h

theorem scanQuoted_spec {q : Char} :
    ∀ (n : Nat) {cs v r : List Char}, cs.length ≤ n →
      scanQuoted q cs = some (v, r) → cs = v ++ r ∧ v ≠ [] := by
  intro n
  induction n with
  | zero =>
      intro cs v r hlen h
      cases cs with
      | nil => cases h
      | cons c cs2 => simp at hlen
  | succ n ih =>
      intro cs v r hlen h
      cases cs with
      | nil => cases h
      | cons c cs2 =>
          rw [scanQuoted.eq_def] at h
          dsimp only at h
          by_cases hq : c = q
          · rw [if_pos hq] at h
            cases cs2 with
            | nil =>
                cases h
                exact ⟨rfl, by simp⟩
            | cons c2 cs3 =>
                dsimp only at h
                by_cases hq2 : c2 = q
                · rw [if_pos hq2] at h
                  cases hscan : scanQuoted q cs3 with
                  | none =>
                      rw [hscan] at h
                      cases h
                      exact ⟨rfl, by simp⟩
                  | some p =>
                      rw [hscan] at h
                      obtain ⟨v2, r2⟩ := p
                      cases h
                      have hlen3 : cs3.length ≤ n := by
                        simp only [List.length_cons] at hlen
                        omega
                      obtain ⟨heq, -⟩ := ih hlen3 hscan
                      refine ⟨?_, by simp⟩
                      rw [List.cons_append, List.cons_append, ← heq]
                · rw [if_neg hq2] at h
                  cases h
                  exact ⟨rfl, by simp⟩
          · rw [if_neg hq] at h
            cases hscan : scanQuoted q cs2 with
            | none => rw [hscan] at h; cases h
            | some p =>
                rw [hscan, Option.map_some'] at h
                obtain ⟨v2, r2⟩ := p
                cases h
                have hlen2 : cs2.length ≤ n := by
                  simp only [List.length_cons] at hlen
                  omega
                obtain ⟨heq, -⟩ := ih hlen2 hscan
                refine ⟨?_, by simp⟩
                rw [List.cons_append, ← heq]

theorem blockEnd_spec :
    ∀ {cs v r : List Char}, blockEnd cs = some (v, r) → cs = v ++ r ∧ v ≠ [] := by
  intro cs
  induction cs using blockEnd.induct with
  | case1 r =>
      intro v r2 h
      rw [blockEnd] at h
      cases h
      exact ⟨rfl, by simp⟩
  | case2 c r hne ih =>
      intro v r2 h
      rw [blockEnd] at h
      · cases hbe : blockEnd r with
        | none => rw [hbe] at h; cases h
        | some p =>
            rw [hbe, Option.map_some'] at h
            obtain ⟨v3, r3⟩ := p
            cases h
            obtain ⟨heq, -⟩ := ih hbe
            refine ⟨?_, by simp⟩
            rw [List.cons_append, ← heq]
      · exact hne
  | case3 =>
      intro v r h
      cases h

theorem takeWhile_spec (p : Char → Bool) (cs : List Char) :
    cs = cs.takeWhile p ++ cs.dropWhile p :=
  (List.takeWhile_append_dropWhile p cs).symm

theorem matchLineComment_spec {cs v r : List Char}
    (h : matchLineComment cs = some (v, r)) : cs = v ++ r ∧ v ≠ [] := by
  unfold matchLineComment at h
  cases hdl : dropLit ['-', '-'] cs with
  | none => rw [hdl] at h; cases h
  | some rest =>
      rw [hdl] at h
      cases h
      refine ⟨?_, by simp⟩
      rw [dropLit_spec hdl]
      simp only [List.cons_append, List.append_assoc, List.nil_append]
      rw [← takeWhile_spec]

theorem matchBlockComment_spec {cs v r : List Char}
    (h : matchBlockComment cs = some (v, r)) : cs = v ++ r ∧ v ≠ [] := by
  unfold matchBlockComment at h
  cases hdl : dropLit ['/', '*'] cs with
  | none => rw [hdl] at h; cases h
  | some rest =>
      rw [hdl] at h
      dsimp only at h
      cases hbe : blockEnd rest with
      | none => rw [hbe] at h; cases h
      | some p =>
          rw [hbe, Option.map_some'] at h
          obtain ⟨v2, r2⟩ := p
          cases h
          obtain ⟨heq, -⟩ := blockEnd_spec hbe
          refine ⟨?_, by simp⟩
          rw [dropLit_spec hdl, heq]
          simp

theorem matchNewline_spec {cs v r : List Char}
    (h : matchNewline cs = some (v, r)) : cs = v ++ r ∧ v ≠ [] := by
  unfold matchNewline at h
  cases h1 : dropLit ['\r', '\n'] cs with
  | some rest =>
      rw [h1] at h
      cases h
      exact ⟨dropLit_spec h1, by simp⟩
  | none =>
      rw [h1] at h
      cases h2 : dropLit ['\r'] cs with
      | some rest =>
          rw [h2] at h
          cases h
          exact ⟨dropLit_spec h2, by simp⟩
      | none =>
          rw [h2] at h
          cases h3 : dropLit ['\n'] cs with
          | some rest =>
              rw [h3] at h
              cases h
              exact ⟨dropLit_spec h3, by simp⟩
          | none => rw [h3] at h; cases h

theorem matchWhitespace_spec {cs v r : List Char}
    (h : matchWhitespace cs = some (v, r)) : cs = v ++ r ∧ v ≠ [] := by
  unfold matchWhitespace at h
  by_cases hws : (cs.takeWhile isTokWs).isEmpty
  · rw [if_pos hws] at h; cases h
  · rw [if_neg hws] at h
    cases h
    exact ⟨takeWhile_spec _ _, by simpa using hws⟩

theorem matchString_spec {cs v r : List Char}
    (h : matchString cs = some (v, r)) : cs = v ++ r ∧ v ≠ [] := by
  unfold matchString at h
  cases hdl : dropLit ['\''] cs with
  | none => rw [hdl] at h; cases h
  | some rest =>
      rw [hdl] at h
      dsimp only at h
      cases hsc : scanQuoted '\'' rest with
      | none => rw [hsc] at h; cases h
      | some p =>
          rw [hsc, Option.map_some'] at h
          obtain ⟨v2, r2⟩ := p
          cases h
          obtain ⟨heq, -⟩ := scanQuoted_spec rest.length (Nat.le_refl _) hsc
          refine ⟨?_, by simp⟩
          rw [dropLit_spec hdl, heq]
          simp

theorem matchQuotedIdent_spec {cs v r : List Char}
    (h : matchQuotedIdent cs = some (v, r)) : cs = v ++ r ∧ v ≠ [] := by
  unfold matchQuotedIdent at h
  cases hdl : dropLit ['"'] cs with
  | none => rw [hdl] at h; cases h
  | some rest =>
      rw [hdl] at h
      dsimp only at h
      cases hsc : scanQuoted '"' rest with
      | none => rw [hsc] at h; cases h
      | some p =>
          rw [hsc, Option.map_some'] at h
          obtain ⟨v2, r2⟩ := p
          cases h
          obtain ⟨heq, -⟩ := scanQuoted_spec rest.length (Nat.le_refl _) hsc
          refine ⟨?_, by simp⟩
          rw [dropLit_spec hdl, heq]
          simp

theorem matchNumber_spec {cs v r : List Char}
    (h : matchNumber cs = some (v, r)) : cs = v ++ r ∧ v ≠ [] := by
  unfold matchNumber at h
  by_cases hd1 : (cs.takeWhile Char.isDigit).isEmpty
  · rw [if_pos hd1] at h; cases h
  · rw [if_neg hd1] at h
    have hsplit := takeWhile_spec Char.isDigit cs
    cases hdrop : cs.dropWhile Char.isDigit with
    | nil =>
        rw [hdrop] at h
        cases h
        refine ⟨?_, by simpa using hd1⟩
        nth_rewrite 1 [hsplit]
        rw [hdrop]
    | cons c0 r2 =>
        rw [hdrop] at h
        dsimp only at h
        by_cases hc0 : c0 = '.'
        · rw [if_pos hc0] at h
          by_cases hd2 : (r2.takeWhile Char.isDigit).isEmpty
          · rw [if_pos hd2] at h
            cases h
            refine ⟨?_, by simpa using hd1⟩
            nth_rewrite 1 [hsplit]
            rw [hdrop]
          · rw [if_neg hd2] at h
            cases h
            refine ⟨?_, by simp at hd1 ⊢⟩
            nth_rewrite 1 [hsplit]
            rw [hdrop]
            nth_rewrite 1 [takeWhile_spec Char.isDigit r2]
            simp
        · rw [if_neg hc0] at h
          cases h
          refine ⟨?_, by simpa using hd1⟩
          nth_rewrite 1 [hsplit]
          rw [hdrop]

theorem matchMultiOp_spec {cs v r : List Char}
    (h : matchMultiOp cs = some (v, r)) : cs = v ++ r ∧ v ≠ [] := by
  have gen : ∀ (lits : List (List Char)) (acc : Option (List Char × List Char)),
      (∀ v2 r2, acc = some (v2, r2) → cs = v2 ++ r2 ∧ v2 ≠ []) →
      (∀ l ∈ lits, l ≠ []) →
      ∀ v2 r2, lits.foldl (fun acc lit =>
        match acc with
        | some res => some res
        | Option.none =>
            match dropLit lit cs with
            | some rest => some (lit, rest)
            | Option.none => Option.none) acc = some (v2, r2) →
        cs = v2 ++ r2 ∧ v2 ≠ [] := by
    intro lits
    induction lits with
    | nil => intro acc hacc _ v2 r2 h2; exact hacc v2 r2 h2
    | cons l ls ih =>
        intro acc hacc hlits v2 r2 h2
        rw [List.foldl_cons] at h2
        refine ih _ ?_ (fun x hx => hlits x (List.mem_cons_of_mem _ hx)) v2 r2 h2
        intro v3 r3 h3
        cases acc with
        | some res => exact hacc v3 r3 (by simpa using h3)
        | none =>
            simp only at h3
            cases hdl : dropLit l cs with
            | none => rw [hdl] at h3; cases h3
            | some rest =>
                rw [hdl] at h3
                cases h3
                exact ⟨dropLit_spec hdl, hlits l (List.mem_cons_self _ _)⟩
  exact gen MULTI_OPS Option.none (fun _ _ h2 => by cases h2) (by decide) v r h

theorem matchSingleOp_spec {cs v r : List Char}
    (h : matchSingleOp cs = some (v, r)) : cs = v ++ r ∧ v ≠ [] := by
  unfold matchSingleOp at h
  cases cs with
  | nil => cases h
  | cons c rest =>
      dsimp only at h
      by_cases hc : SINGLE_OP_CHARS.contains c
      · rw [if_pos hc] at h
        cases h
        exact ⟨rfl, by simp⟩
      · rw [if_neg hc] at h; cases h

theorem matchChar_spec {ch : Char} {cs v r : List Char}
    (h : matchChar ch cs = some (v, r)) : cs = v ++ r ∧ v ≠ [] := by
  unfold matchChar at h
  cases cs with
  | nil => cases h
  | cons c rest =>
      dsimp only at h
      by_cases hc : c = ch
      · rw [if_pos hc] at h
        cases h
        exact ⟨rfl, by simp⟩
      · rw [if_neg hc] at h; cases h

theorem matchIdent_spec {cs v r : List Char}
    (h : matchIdent cs = some (v, r)) : cs = v ++ r ∧ v ≠ [] := by
  unfold matchIdent at h
  cases cs with
  | nil => cases h
  | cons c rest =>
      dsimp only at h
      by_cases hc : c.isAlpha || c = '_'
      · rw [if_pos hc] at h
        cases h
        refine ⟨?_, by simp⟩
        rw [List.cons_append, ← takeWhile_spec]
      · rw [if_neg hc] at h; cases h

/-- Every alternative of the master pattern consumes a non-empty prefix. -/
theorem masterMatch_spec {cs : List Char} {t : TokenType} {v r : List Char}
    (h : masterMatch cs = some (t, v, r)) : cs = v ++ r ∧ v ≠ [] := by
  have gen : ∀ (specs : List (TokenType × (List Char → Option (List Char × List Char))))
      (acc : Option (TokenType × List Char × List Char)),
      (∀ t2 v2 r2, acc = some (t2, v2, r2) → cs = v2 ++ r2 ∧ v2 ≠ []) →
      (∀ s ∈ specs, ∀ v2 r2, s.2 cs = some (v2, r2) → cs = v2 ++ r2 ∧ v2 ≠ []) →
      ∀ t2 v2 r2, specs.foldl (fun acc spec =>
        match acc with
        | some res => some res
        | Option.none => (spec.2 cs).map (fun p => (spec.1, p.1, p.2))) acc =
          some (t2, v2, r2) →
        cs = v2 ++ r2 ∧ v2 ≠ [] := by
    intro specs
    induction specs with
    | nil => intro acc hacc _ t2 v2 r2 h2; exact hacc t2 v2 r2 h2
    | cons s ss ih =>
        intro acc hacc hspecs t2 v2 r2 h2
        rw [List.foldl_cons] at h2
        refine ih _ ?_ (fun x hx => hspecs x (List.mem_cons_of_mem _ hx)) t2 v2 r2 h2
        intro t3 v3 r3 h3
        cases acc with
        | some res => exact hacc t3 v3 r3 (by simpa using h3)
        | none =>
            simp only at h3
            cases hm : s.2 cs with
            | none => rw [hm] at h3; cases h3
            | some p =>
                rw [hm, Option.map_some'] at h3
                obtain ⟨v4, r4⟩ := p
                cases h3
                exact hspecs s (List.mem_cons_self _ _) v4 r4 hm
  refine gen TOKEN_SPECS Option.none (fun _ _ _ h2 => by cases h2) ?_ t v r h
  intro s hs v2 r2 hm
  simp only [TOKEN_SPECS, List.mem_cons, List.not_mem_nil, or_false] at hs
  rcases hs with rfl | rfl | rfl | rfl | rfl | rfl | rfl | rfl | rfl | rfl | rfl | rfl | rfl | rfl | rfl
  · exact matchLineComment_spec hm
  · exact matchBlockComment_spec hm
  · exact matchNewline_spec hm
  · exact matchWhitespace_spec hm
  · exact matchString_spec hm
  · exact matchQuotedIdent_spec hm
  · exact matchNumber_spec hm
  · exact matchMultiOp_spec hm
  · exact matchSingleOp_spec hm
  · exact matchChar_spec hm
  · exact matchChar_spec hm
  · exact matchChar_spec hm
  · exact matchChar_spec hm
  · exact matchChar_spec hm
  · exact matchIdent_spec hm
/-- SQLTokenizer.KEYWORDS (src/parser/tokenizer.py). -/
def KEYWORDS : List String :=
  ["CREATE", "ALTER", "DROP", "TABLE", "SCHEMA", "COLUMN",
   "CONSTRAINT", "PRIMARY", "KEY", "FOREIGN", "REFERENCES",
   "UNIQUE", "CHECK", "DEFAULT", "NOT", "NULL",
   "ADD", "RENAME", "TO", "IF", "EXISTS",
   "ON", "DELETE", "UPDATE", "CASCADE", "RESTRICT", "SET"]

/-- SQLTokenizer.TYPE_KEYWORDS (src/parser/tokenizer.py). -/
def TYPE_KEYWORDS : List String :=
  ["SMALLINT", "INTEGER", "INT", "BIGINT",
   "REAL", "DOUBLE", "DOUBLE PRECISION", "FLOAT", "FLOAT4", "FLOAT8",
   "NUMERIC", "DECIMAL",
   "CHAR", "CHARACTER", "VARCHAR", "TEXT", "CHARACTER VARYING",
   "BOOLEAN", "BOOL",
   "DATE", "TIME", "TIMESTAMP", "TIMESTAMPTZ", "TIMETZ", "INTERVAL",
   "JSON", "JSONB", "UUID", "XML",
   "BYTEA", "OID", "MONEY"]

/-- SQLTokenizer.CONSTRAINT_KEYWORDS (src/parser/tokenizer.py). -/
def CONSTRAINT_KEYWORDS : List String :=
  ["PRIMARY", "FOREIGN", "UNIQUE", "CHECK", "REFERENCES", "DEFAULT", "NOT", "NULL"]

/-- SQLTokenizer._determine_token_type (src/parser/tokenizer.py, lines
175-191): identifiers are refined into keyword, type or constraint by
uppercase membership, in that order. -/
def determineTokenType (base : TokenType) (value : List Char) : TokenType :=
  if base ≠ .identifier then base
  else
    let u : String := ⟨value.map Char.toUpper⟩
    if KEYWORDS.contains u then .keyword
    else if TYPE_KEYWORDS.contains u then .type
    else if CONSTRAINT_KEYWORDS.contains u then .constraint
    else .identifier

/-- The loop of SQLTokenizer.tokenize (src/parser/tokenizer.py, lines
115-173), indexed by fuel for structural recursion; tokenize supplies fuel
larger than the remaining input, and every match consumes at least one
character (masterMatch_spec), so by tokenizeLoop_fuel below the fuel-zero
fallback is never what the actual call returns.  When no pattern matches,
one character is emitted as an Operator token and the position advances by
exactly one; whitespace, comment and newline matches update positions and
are dropped; other matches are classified and case-normalized. -/
def tokenizeStep (preserve_case : Bool)
    (rec : List Char → Nat → Nat → Nat → List Token)
    (cs : List Char) (line col pos : Nat) : List Token :=
  match cs with
  | [] => [Token.mk .eof [] line col pos]
  | c :: cs2 =>
      match masterMatch (c :: cs2) with
      | Option.none =>
          Token.mk .operator [c] line col pos ::
            rec cs2 line (col + 1) (pos + 1)
      | some (base, v, rest) =>
          let n := v.length
          let line2 := if base = .newline then line + 1 else line
          let col2 := if base = .newline then 1 else col + n
          let pos2 := pos + n
          if base = .whitespace ∨ base = .comment ∨ base = .newline then
            rec rest line2 col2 pos2
          else
            let precise := determineTokenType base v
            let v2 :=
              if precise = .identifier ∧ !preserve_case then v.map Char.toLower
              else if precise = .keyword ∧ !preserve_case then v.map Char.toUpper
              else v
            Token.mk precise v2 line2 (col2 - n) (pos2 - n) ::
              rec rest line2 col2 pos2

/-- The fuel-indexed recursion: each round runs one step, recursing through
the remaining fuel. -/
def tokenizeLoop (preserve_case : Bool) :
    Nat → List Char → Nat → Nat → Nat → List Token
  | 0, _, line, col, pos => [Token.mk .eof [] line col pos]
  | fuel + 1, cs, line, col, pos =>
      tokenizeStep preserve_case (tokenizeLoop preserve_case fuel) cs line col pos

/-- SQLTokenizer.tokenize (src/parser/tokenizer.py): run the loop from line
1, column 1, position 0, with more fuel than the input length. -/
def tokenize (preserve_case : Bool) (s : String) : List Token :=
  tokenizeLoop preserve_case (s.data.length + 1) s.data 1 1 0

theorem tokenizeLoop_last_eof (preserve_case : Bool) :
    ∀ (fuel : Nat) (cs : List Char) (line col pos : Nat),
      ∃ t, (tokenizeLoop preserve_case fuel cs line col pos).getLast? = some t ∧
        t.type = .eof := by
  intro fuel
  induction fuel with
  | zero => intro cs line col pos; exact ⟨_, rfl, rfl⟩
  | succ fuel ih =>
      intro cs line col pos
      cases cs with
      | nil => exact ⟨_, rfl, rfl⟩
      | cons c cs2 =>
          rw [tokenizeLoop]
          unfold tokenizeStep
          dsimp only
          cases hm : masterMatch (c :: cs2) with
          | none =>
              obtain ⟨t, ht, hty⟩ := ih cs2 line (col + 1) (pos + 1)
              refine ⟨t, ?_, hty⟩
              rw [List.getLast?_cons, ht]
              rfl
          | some triple =>
              obtain ⟨base, v, rest⟩ := triple
              dsimp only
              by_cases hcond : base = .whitespace ∨ base = .comment ∨ base = .newline
              · rw [if_pos hcond]
                exact ih rest _ _ _
              · rw [if_neg hcond]
                obtain ⟨t, ht, hty⟩ := ih rest
                  (if base = .newline then line + 1 else line)
                  (if base = .newline then 1 else col + v.length)
                  (pos + v.length)
                refine ⟨t, ?_, hty⟩
                rw [List.getLast?_cons, ht]
                rfl

/-- With fuel exceeding the remaining input the loop result does not depend
on the fuel: every successful match consumes at least one character and the
fallback consumes exactly one, so the fuel-zero state is unreachable. -/
theorem tokenizeLoop_fuel (preserve_case : Bool) :
    ∀ (fuel1 fuel2 : Nat) (cs : List Char) (line col pos : Nat),
      cs.length < fuel1 → cs.length < fuel2 →
      tokenizeLoop preserve_case fuel1 cs line col pos =
        tokenizeLoop preserve_case fuel2 cs line col pos := by
  intro fuel1
  induction fuel1 with
  | zero => intro fuel2 cs line col pos h1 h2; exact absurd h1 (Nat.not_lt_zero _)
  | succ fuel1 ih =>
      intro fuel2 cs line col pos h1 h2
      cases fuel2 with
      | zero => exact absurd h2 (Nat.not_lt_zero _)
      | succ fuel2 =>
          cases cs with
          | nil => rfl
          | cons c cs2 =>
              rw [tokenizeLoop, tokenizeLoop]
              unfold tokenizeStep
              dsimp only
              cases hm : masterMatch (c :: cs2) with
              | none =>
                  rw [ih fuel2 cs2 line (col + 1) (pos + 1)
                    (by simp only [List.length_cons] at h1; omega)
                    (by simp only [List.length_cons] at h2; omega)]
              | some triple =>
                  obtain ⟨base, v, rest⟩ := triple
                  obtain ⟨heq, hne⟩ := masterMatch_spec hm
                  have hlen : (c :: cs2).length = v.length + rest.length := by
                    rw [heq, List.length_append]
                  have hv : 1 ≤ v.length := List.length_pos.mpr hne
                  have hr1 : rest.length < fuel1 := by
                    rw [hlen] at h1; omega
                  have hr2 : rest.length < fuel2 := by
                    rw [hlen] at h2; omega
                  dsimp only
                  by_cases hcond : base = .whitespace ∨ base = .comment ∨ base = .newline
                  · simp only [if_pos hcond]
                    exact ih fuel2 rest _ _ _ hr1 hr2
                  · simp only [if_neg hcond]
                    rw [ih fuel2 rest _ _ _ hr1 hr2]

/-- C8: for every input the tokenizer terminates and returns a token list
ending in a synthetic EOF token; at a position where no pattern of the token
table matches it emits a one-character Operator token and advances by exactly
one; and every successful master-pattern match consumes a non-empty prefix of
the input, so every match strictly advances the position. -/
theorem c8_tokenizer_total :
    (∀ (preserve_case : Bool) (s : String),
      ∃ t, (tokenize preserve_case s).getLast? = some t ∧ t.type = .eof)
    ∧ (∀ (preserve_case : Bool) (fuel : Nat) (c : Char) (cs : List Char)
        (line col pos : Nat), masterMatch (c :: cs) = Option.none →
        tokenizeLoop preserve_case (fuel + 1) (c :: cs) line col pos =
          Token.mk .operator [c] line col pos ::
            tokenizeLoop preserve_case fuel cs line (col + 1) (pos + 1))
    ∧ (∀ (cs : List Char) (t : TokenType) (v r : List Char),
        masterMatch cs = some (t, v, r) → cs = v ++ r ∧ v ≠ []) := by
  refine ⟨?_, ?_, fun cs t v r h => masterMatch_spec h⟩
  · intro pc s
    exact tokenizeLoop_last_eof pc _ s.data 1 1 0
  · intro pc fuel c cs line col pos hm
    rw [tokenizeLoop]
    unfold tokenizeStep
    dsimp only
    rw [hm]

/-- Witness instantiating C8: no pattern matches a dollar sign, which becomes
a one-character Operator token, and a concrete identifier match consumes a
non-empty prefix. -/
theorem c8_tokenizer_witness :
    masterMatch ['$'] = Option.none ∧
      tokenizeLoop false 2 ['$'] 1 1 0 =
        Token.mk .operator ['$'] 1 1 0 :: tokenizeLoop false 1 [] 1 2 1 ∧
      ((['a'] : List Char) = ['a'] ++ [] ∧ (['a'] : List Char) ≠ []) :=
  ⟨by decide, c8_tokenizer_total.2.1 false 1 '$' [] 1 1 0 (by decide),
   c8_tokenizer_total.2.2 ['a'] .identifier ['a'] [] (by decide)⟩

/-- The Python regex whitespace class (ASCII): space, tab, newline, carriage
return, formfeed, vertical tab. -/
def isPyWs (c : Char) : Bool :=
  c = ' ' || c = '\t' || c = '\n' || c = '\r' || c = '\x0c' || c = '\x0b'

/-- Python regex word characters (ASCII), the boundary class of backslash-b. -/
def isWordChar (c : Char) : Bool := c.isAlphanum || c = '_'

/-- Python str.strip() on a character list. -/
def pyStrip (cs : List Char) : List Char :=
  (((cs.dropWhile isPyWs).reverse).dropWhile isPyWs).reverse

/-- The single-line-comment sub of SQLNormalizer._remove_comments
(src/parser/normalizer.py): every occurrence of two dashes is deleted up to,
excluding, the next newline.  The Bool is the in-comment scanning mode. -/
def stripLCAux : Bool → List Char → List Char
  | _, [] => []
  | false, [c1] => [c1]
  | false, c1 :: c2 :: rest2 =>
      if c1 = '-' ∧ c2 = '-' then stripLCAux true rest2
      else c1 :: stripLCAux false (c2 :: rest2)
  | true, c :: rest =>
      if c = '\n' then c :: stripLCAux false rest else stripLCAux true rest

/-- The block-comment sub of SQLNormalizer._remove_comments: slash-star
lazily through the first star-slash, deleted only when a terminator exists
(the regex does not match otherwise).  The Bool is the in-comment mode. -/
def stripBCAux : Bool → List Char → List Char
  | false, [] => []
  | false, [c1] => [c1]
  | false, c1 :: c2 :: rest2 =>
      if c1 = '/' ∧ c2 = '*' ∧ (blockEnd rest2).isSome then stripBCAux true rest2
      else c1 :: stripBCAux false (c2 :: rest2)
  | true, [] => []
  | true, [_] => []
  | true, c1 :: c2 :: rest2 =>
      if c1 = '*' ∧ c2 = '/' then stripBCAux false rest2
      else stripBCAux true (c2 :: rest2)

/-- SQLNormalizer._remove_comments: the single-line sub runs before the
block sub, each over the whole text (string literals are not respected,
exactly as in the source). -/
def removeComments (cs : List Char) : List Char :=
  stripBCAux false (stripLCAux false cs)

/-- Case-insensitive literal-prefix consumption (ASCII lowering). -/
def dropLitCI : List Char → List Char → Option (List Char)
  | [], cs => some cs
  | _, [] => Option.none
  | l :: ls, c :: cs => if c.toLower = l.toLower then dropLitCI ls cs else Option.none

/-- Match a keyword-pattern word sequence at the head of the input: the
words case-insensitively, separated by one-or-more whitespace, with a word
boundary after the last word; returns the rest. -/
def matchWordsCI : List String → List Char → Option (List Char)
  | [], cs =>
      (match cs with
        | c :: _ => if isWordChar c then Option.none else some cs
        | [] => some cs)
  | [w], cs =>
      (dropLitCI w.data cs).bind (fun rest =>
        match rest with
        | c :: _ => if isWordChar c then Option.none else some rest
        | [] => some rest)
  | w :: ws, cs =>
      (dropLitCI w.data cs).bind (fun rest =>
        if (rest.takeWhile isPyWs).isEmpty then Option.none
        else matchWordsCI ws (rest.dropWhile isPyWs))

/-- One pass of a word-boundary keyword substitution, scanning the original
text left to right with the previous original character carried for the
left boundary (a match is only attempted after a non-word character or at
the start, as backslash-b demands), fuel-indexed; each step consumes at
least one character, and every use supplies fuel beyond the input length. -/
def replaceKWAux (words : List String) (repl : List Char) :
    Nat → Option Char → List Char → List Char
  | 0, _, cs => cs
  | _ + 1, _, [] => []
  | fuel + 1, prev, c :: rest =>
      let boundary :=
        match prev with
        | some p => !isWordChar p
        | Option.none => true
      if boundary then
        match matchWordsCI words (c :: rest) with
        | some after =>
            repl ++ replaceKWAux words repl fuel
              (some ((words.getLastD "x").data.getLastD 'x')) after
        | Option.none => c :: replaceKWAux words repl fuel (some c) rest
      else c :: replaceKWAux words repl fuel (some c) rest

/-- One compiled keyword pattern applied by re.sub over the whole text. -/
def replaceKeywordCI (words : List String) (repl : String) (cs : List Char) :
    List Char :=
  replaceKWAux words repl.data (cs.length + 1) Option.none cs

/-- SQLNormalizer._compile_keyword_patterns (src/parser/normalizer.py, lines
65-96): the source-ordered word-boundary substitutions. -/
def KEYWORD_PATTERNS : List (List String × String) :=
  [(["create"], "CREATE"), (["table"], "TABLE"), (["alter"], "ALTER"),
   (["drop"], "DROP"), (["add"], "ADD"), (["column"], "COLUMN"),
   (["constraint"], "CONSTRAINT"), (["primary"], "PRIMARY"), (["key"], "KEY"),
   (["foreign"], "FOREIGN"), (["references"], "REFERENCES"),
   (["unique"], "UNIQUE"), (["check"], "CHECK"), (["not"], "NOT"),
   (["null"], "NULL"), (["default"], "DEFAULT"),
   (["double", "precision"], "DOUBLE PRECISION"),
   (["character", "varying"], "CHARACTER VARYING"),
   (["if", "exists"], "IF EXISTS")]

/-- SQLNormalizer._uppercase_keywords: the patterns applied in order. -/
def uppercaseKeywords (cs : List Char) : List Char :=
  KEYWORD_PATTERNS.foldl (fun acc p => replaceKeywordCI p.1 p.2 acc) cs

/-- Whitespace-run collapse (the multiple_spaces sub): every maximal
whitespace run becomes one space. -/
def collapseWsAux : Bool → List Char → List Char
  | _, [] => []
  | inWs, c :: rest =>
      if isPyWs c then
        if inWs then collapseWsAux true rest
        else ' ' :: collapseWsAux true rest
      else c :: collapseWsAux false rest

/-- The space_before_comma sub: a whitespace run directly before a comma is
deleted; the first argument buffers the pending run in reverse. -/
def subSpaceBeforeCommaAux : List Char → List Char → List Char
  | pending, [] => pending.reverse
  | pending, c :: rest =>
      if isPyWs c then subSpaceBeforeCommaAux (c :: pending) rest
      else if c = ',' ∧ !pending.isEmpty then
        ',' :: subSpaceBeforeCommaAux [] rest
      else pending.reverse ++ c :: subSpaceBeforeCommaAux [] rest

/-- The space_after_comma sub: a comma plus any following whitespace run
becomes comma-space. -/
def subCommaSpaceAux : Bool → List Char → List Char
  | _, [] => []
  | afterComma, c :: rest =>
      if afterComma ∧ isPyWs c then subCommaSpaceAux true rest
      else if c = ',' then ',' :: ' ' :: subCommaSpaceAux true rest
      else c :: subCommaSpaceAux false rest

/-- The space_before_semicolon sub. -/
def subSpaceBeforeSemiAux : List Char → List Char → List Char
  | pending, [] => pending.reverse
  | pending, c :: rest =>
      if isPyWs c then subSpaceBeforeSemiAux (c :: pending) rest
      else if c = ';' ∧ !pending.isEmpty then
        ';' :: subSpaceBeforeSemiAux [] rest
      else pending.reverse ++ c :: subSpaceBeforeSemiAux [] rest

/-- SQLNormalizer._normalize_whitespace (src/parser/normalizer.py, lines
132-138): collapse, the three comma and semicolon subs in order, strip. -/
def normalizeWhitespaceChars (cs : List Char) : List Char :=
  pyStrip (subSpaceBeforeSemiAux []
    (subCommaSpaceAux false
      (subSpaceBeforeCommaAux []
        (collapseWsAux false cs))))

/-- One quote-kind pass of SQLNormalizer._standardize_quotes
(src/parser/normalizer.py, lines 140-144): the regex quote, ws-run, lazy
nonempty non-quote group, ws-run, quote matches a quoted span exactly when
the span's inner text has length at least three and starts and ends with
whitespace; the greedy-lazy backtracking keeps the strip of the inner text
as the group, except that an all-whitespace inner keeps its single
second-to-last character.  An unmatched quote is copied and scanning
resumes right after it, exactly as re.sub restarts.  Fuel-indexed; each
step consumes at least one character. -/
def stdQuoteAux (q : Char) : Nat → List Char → List Char
  | 0, cs => cs
  | _ + 1, [] => []
  | fuel + 1, c :: rest =>
      if c = q then
        let inner := rest.takeWhile (fun x => !(x = q))
        let after := rest.dropWhile (fun x => !(x = q))
        match after with
        | _ :: after2 =>
            if 3 ≤ inner.length ∧ isPyWs (inner.headD 'x') ∧
                isPyWs (inner.getLastD 'x') then
              let content := pyStrip inner
              let content2 :=
                if content.isEmpty then [inner.dropLast.getLastD ' ']
                else content
              q :: (content2 ++ q :: stdQuoteAux q fuel after2)
            else q :: stdQuoteAux q fuel rest
        | [] => q :: stdQuoteAux q fuel rest
      else c :: stdQuoteAux q fuel rest

/-- SQLNormalizer._standardize_quotes: double quotes first, then single. -/
def standardizeQuotes (cs : List Char) : List Char :=
  stdQuoteAux '\'' (cs.length + 1) (stdQuoteAux '"' (cs.length + 1) cs)

/-- The spacing rules of the token re-rendering loop inside
SQLNormalizer._token_level_normalization: no space before comma, rparen,
dot, semicolon, none after lparen or dot, one space otherwise. -/
def renderTokens : List Token → List Char
  | [] => []
  | [t] => t.value
  | t :: t2 :: rest =>
      t.value ++
        (if t2.type = .comma ∨ t2.type = .rparen ∨ t2.type = .dot ∨
            t2.type = .semicolon then []
         else if t.type = .lparen ∨ t.type = .dot then []
         else [' ']) ++ renderTokens (t2 :: rest)

/-- SQLNormalizer._token_level_normalization (src/parser/normalizer.py,
lines 146-191): tokenize (the instance tokenizer has preserve_case False
under the default uppercase_keywords True), drop the EOF token (the
tokenizer has no filter_tokens attribute, so that compatibility call is
skipped), re-render with the spacing rules, collapse whitespace, strip. -/
def tokenLevelNormalization (cs : List Char) : List Char :=
  let tokens := (tokenizeLoop false (cs.length + 1) cs 1 1 0).filter
    (fun t => decide (t.type ≠ .eof))
  if tokens.isEmpty then []
  else pyStrip (collapseWsAux false (renderTokens tokens))

/-- SQLNormalizer.normalize (src/parser/normalizer.py, lines 98-119) with
the default configuration (uppercase_keywords, remove_comments,
normalize_whitespace, standardize_quotes all True): empty or all-whitespace
input is returned unchanged; otherwise comments are removed, keywords
uppercased, whitespace normalized, quotes standardized, the text re-rendered
through the tokenizer, and the result stripped. -/
def normalizeChars (cs : List Char) : List Char :=
  if (cs.filter (fun c => !isPyWs c)).isEmpty then cs
  else
    pyStrip (tokenLevelNormalization
      (standardizeQuotes
        (normalizeWhitespaceChars
          (uppercaseKeywords
            (removeComments cs)))))

/-- String-level wrapper of SQLNormalizer.normalize. -/
def normalize (s : String) : String := String.mk (normalizeChars s.data)

/-- Statement splitting: cuts after each semicolon, keeping the terminator
with its statement.  Models the statement boundary behaviour of the
external sqlparse library (sqlparse.split / sqlparse.parse, imported by the
repository but not part of it) on the semicolon-separated DDL the pipeline
feeds it. -/
def sqlparseSplitAux : List Char → List Char → List (List Char)
  | acc, [] => if acc.isEmpty then [] else [acc.reverse]
  | acc, c :: rest =>
      if c = ';' then (c :: acc).reverse :: sqlparseSplitAux [] rest
      else sqlparseSplitAux (c :: acc) rest

/-- sqlparse statement list of a text. -/
def sqlparseSplit (cs : List Char) : List (List Char) := sqlparseSplitAux [] cs

/-- The identifier class of the parser regexes: letters, digits,
underscore, dot. -/
def isNameChar (c : Char) : Bool := c.isAlphanum || c = '_' || c = '.'

/-- Python substring membership (the in operator on str). -/
def containsSub (pat : List Char) : List Char → Bool
  | [] => pat.isEmpty
  | c :: rest => pat.isPrefixOf (c :: rest) || containsSub pat rest

/-- Python str.split() with no argument: the maximal non-whitespace runs. -/
def pyWordsAux : List Char → List Char → List (List Char)
  | acc, [] => if acc.isEmpty then [] else [acc.reverse]
  | acc, c :: rest =>
      if isPyWs c then
        (if acc.isEmpty then pyWordsAux [] rest
         else acc.reverse :: pyWordsAux [] rest)
      else pyWordsAux (c :: acc) rest

/-- Python str.split() with no argument. -/
def pyWords (cs : List Char) : List (List Char) := pyWordsAux [] cs

/-- Python str.strip with a single character argument: every leading and
trailing occurrence of that character is removed. -/
def stripChar (q : Char) (cs : List Char) : List Char :=
  ((cs.dropWhile (fun c => c = q)).reverse.dropWhile (fun c => c = q)).reverse

/-- SQLParser._split_qualified_name (src/parser/sql_parser.py): split at the
first dot into schema and name, each stripped of double quotes; without a
dot the schema defaults to public. -/
def split_qualified_name (cs : List Char) : String × String :=
  if cs.contains '.' then
    (String.mk (stripChar '"' (cs.takeWhile (fun c => !(c = '.')))),
     String.mk (stripChar '"' ((cs.dropWhile (fun c => !(c = '.'))).drop 1)))
  else ("public", String.mk (stripChar '"' cs))

/-- A parsed column: its DatabaseObject together with the separate
data_type field of the Column model (src/core/models.py). -/
structure PColumn where
  obj : DatabaseObject
  data_type : String
  deriving DecidableEq, Repr

/-- A parsed table (the Table model as SQLParser builds it): name, schema,
the insertion-ordered columns dict, the foreign_keys list its attributes
carry, and the raw statement text.  parse_to_objects constructs no other
object kind, so the builder's non-table skip is implicit in this type. -/
structure PTable where
  name : String
  schema : String
  columns : List (String × PColumn)
  fks : List FKInfo
  raw_sql : String
  deriving DecidableEq, Repr

/-- The table's own DatabaseObject as the builder stores it: attributes
foreign_keys (the list after all parser appends) and raw_sql. -/
def PTable.toObj (t : PTable) : DatabaseObject :=
  ⟨0, .table, t.name, some t.schema,
    [("foreign_keys", .fkList t.fks), ("raw_sql", .str t.raw_sql)]⟩

/-- One attempt of the column-level REFERENCES regex of _parse_column:
REFERENCES, whitespace, qualified name, optional whitespace, parenthesised
nonempty column group; yields the name and the raw inner group. -/
def matchRefs (cs : List Char) : Option (List Char × List Char) :=
  (dropLitCI "references".data cs).bind (fun r1 =>
    if (r1.takeWhile isPyWs).isEmpty then Option.none
    else
      let r2 := r1.dropWhile isPyWs
      let name := r2.takeWhile isNameChar
      if name.isEmpty then Option.none
      else
        let r3 := (r2.dropWhile isNameChar).dropWhile isPyWs
        match r3 with
        | '(' :: r4 =>
            let inner := r4.takeWhile (fun c => !(c = ')'))
            if inner.isEmpty then Option.none
            else
              match r4.dropWhile (fun c => !(c = ')')) with
              | _ :: _ => some (name, inner)
              | [] => Option.none
        | _ => Option.none)

/-- re.search of the REFERENCES pattern: first matching position wins. -/
def searchRefs : List Char → Option (List Char × List Char)
  | [] => Option.none
  | c :: rest =>
      match matchRefs (c :: rest) with
      | some r => some r
      | Option.none => searchRefs rest

/-- SQLParser._parse_column (src/parser/sql_parser.py, lines 103-146)
composed with the Column constructor (src/core/models.py, lines 65-100).
The parser never passes is_nullable, so the constructor's setdefault
records is_nullable True on every parsed column regardless of NOT NULL,
while the parser-set not_null entry survives its setdefault. -/
def parse_column (element : List Char) (table_name : String) : Option PColumn :=
  match pyWords element with
  | [] => Option.none
  | p0 :: prest =>
      let name := String.mk (stripChar '"' p0)
      let data_type :=
        match prest with
        | p1 :: _ => String.mk (p1.map Char.toUpper)
        | [] => "UNKNOWN"
      let upper := element.map Char.toUpper
      let attrs0 : Attrs :=
        [("definition", .str (String.mk element)),
         ("data_type", .str data_type),
         ("table", .str table_name),
         ("is_primary_key", .bool (containsSub "PRIMARY KEY".data upper)),
         ("is_unique", .bool (containsSub "UNIQUE".data upper &&
            !containsSub "PRIMARY KEY".data upper)),
         ("not_null", .bool (containsSub "NOT NULL".data upper))]
      let attrs1 :=
        match searchRefs element with
        | some (refFull, refColRaw) =>
            let sq := split_qualified_name refFull
            attrs0 ++ [("foreign_key", .fk
              { column := Option.none,
                referenced_schema := some sq.1,
                referenced_table := some sq.2,
                referenced_column := some (String.mk (pyStrip refColRaw)) })]
        | Option.none => attrs0
      let attrs2 := pySetdefault attrs1 "table" .none
      let attrs3 := pySetdefault attrs2 "data_type" (.str data_type)
      let attrs4 := pySetdefault attrs3 "is_nullable" (.bool true)
      let attrs5 := pySetdefault attrs4 "not_null" (.bool false)
      some ⟨⟨0, .column, name, Option.none, attrs5⟩, data_type⟩

/-- One attempt of the table-level FOREIGN KEY regex of
_parse_table_level_fk: FOREIGN, whitespace, KEY, optional whitespace,
parenthesised column group, whitespace, REFERENCES, whitespace, qualified
name, optional whitespace, parenthesised column group. -/
def matchTableFK (cs : List Char) : Option (List Char × List Char × List Char) :=
  (dropLitCI "foreign".data cs).bind (fun r1 =>
    if (r1.takeWhile isPyWs).isEmpty then Option.none
    else
      (dropLitCI "key".data (r1.dropWhile isPyWs)).bind (fun r2 =>
        match r2.dropWhile isPyWs with
        | '(' :: r4 =>
            let cols := r4.takeWhile (fun c => !(c = ')'))
            if cols.isEmpty then Option.none
            else
              match r4.dropWhile (fun c => !(c = ')')) with
              | _ :: r5 =>
                  if (r5.takeWhile isPyWs).isEmpty then Option.none
                  else
                    (dropLitCI "references".data (r5.dropWhile isPyWs)).bind
                      (fun r6 =>
                        if (r6.takeWhile isPyWs).isEmpty then Option.none
                        else
                          let r7 := r6.dropWhile isPyWs
                          let name := r7.takeWhile isNameChar
                          if name.isEmpty then Option.none
                          else
                            match (r7.dropWhile isNameChar).dropWhile isPyWs with
                            | '(' :: r9 =>
                                let rc := r9.takeWhile (fun c => !(c = ')'))
                                if rc.isEmpty then Option.none
                                else
                                  match r9.dropWhile (fun c => !(c = ')')) with
                                  | _ :: _ => some (cols, name, rc)
                                  | [] => Option.none
                            | _ => Option.none)
              | [] => Option.none
        | _ => Option.none))

/-- re.search of the table-level FOREIGN KEY pattern. -/
def searchTableFK : List Char → Option (List Char × List Char × List Char)
  | [] => Option.none
  | c :: rest =>
      match matchTableFK (c :: rest) with
      | some r => some r
      | Option.none => searchTableFK rest

/-- SQLParser._parse_table_level_fk (lines 151-172): the fk dict of a
table-level constraint, carrying the column key the column-level form
lacks; no regex match yields None and the element is skipped. -/
def parse_table_level_fk (el : List Char) : Option FKInfo :=
  (searchTableFK el).map (fun m =>
    let sq := split_qualified_name m.2.1
    { column := some (String.mk (pyStrip m.1)),
      referenced_schema := some sq.1,
      referenced_table := some sq.2,
      referenced_column := some (String.mk (pyStrip m.2.2)) })

/-- SQLParser._split_elements (lines 176-199): split the body on top-level
commas, tracking parenthesis depth, keeping nonempty stripped parts. -/
def splitElementsAux : Int → List Char → List Char → List (List Char)
  | _, cur, [] =>
      (let tail := pyStrip cur.reverse
       if tail.isEmpty then [] else [tail])
  | depth, cur, c :: rest =>
      let depth2 : Int :=
        if c = '(' then depth + 1 else if c = ')' then depth - 1 else depth
      if c = ',' ∧ depth2 = 0 then
        (let part := pyStrip cur.reverse
         if part.isEmpty then splitElementsAux depth2 [] rest
         else part :: splitElementsAux depth2 [] rest)
      else splitElementsAux depth2 (c :: cur) rest

/-- _split_elements from depth 0. -/
def splitElements (body : List Char) : List (List Char) :=
  splitElementsAux 0 [] body

/-- The greedy DOTALL group of the CREATE TABLE regex: everything up to the
last right parenthesis of the rest of the statement, when one exists. -/
def lastRParenBody (cs : List Char) : Option (List Char) :=
  let revTail := cs.reverse.takeWhile (fun c => !(c = ')'))
  if revTail.length = cs.length then Option.none
  else some (cs.take (cs.length - revTail.length - 1))

/-- One attempt of the CREATE TABLE regex: CREATE, whitespace, TABLE,
whitespace, qualified name, optional whitespace, opening parenthesis, then
the greedy body to the last closing parenthesis. -/
def matchCT (cs : List Char) : Option (List Char × List Char) :=
  (dropLitCI "create".data cs).bind (fun r1 =>
    if (r1.takeWhile isPyWs).isEmpty then Option.none
    else
      (dropLitCI "table".data (r1.dropWhile isPyWs)).bind (fun r2 =>
        if (r2.takeWhile isPyWs).isEmpty then Option.none
        else
          let r3 := r2.dropWhile isPyWs
          let name := r3.takeWhile isNameChar
          if name.isEmpty then Option.none
          else
            match (r3.dropWhile isNameChar).dropWhile isPyWs with
            | '(' :: r5 => (lastRParenBody r5).map (fun body => (name, body))
            | _ => Option.none))

/-- re.search of the CREATE TABLE pattern. -/
def searchCT : List Char → Option (List Char × List Char)
  | [] => Option.none
  | c :: rest =>
      match matchCT (c :: rest) with
      | some r => some r
      | Option.none => searchCT rest

/-- Python dict assignment into the columns dict: overwrite in place or
append. -/
def dictSetCol (k : String) (v : PColumn) :
    List (String × PColumn) → List (String × PColumn)
  | [] => [(k, v)]
  | (k2, v2) :: rest =>
      if k2 = k then (k, v) :: rest else (k2, v2) :: dictSetCol k v rest

/-- The element loop body of _parse_create_table: table-level FOREIGN KEY
elements extend the fk list; anything else is parsed as a column whose
inline foreign_key attribute, when present, also extends the fk list. -/
def processElement (tname : String) (t : PTable) (elRaw : List Char) : PTable :=
  let el := pyStrip elRaw
  if "FOREIGN KEY".data.isPrefixOf (el.map Char.toUpper) then
    match parse_table_level_fk el with
    | some fk => { t with fks := t.fks ++ [fk] }
    | Option.none => t
  else
    match parse_column el tname with
    | some col =>
        let t2 := { t with columns := dictSetCol col.obj.name col t.columns }
        match col.obj.attributes.lookup "foreign_key" with
        | some (.fk fk) => { t2 with fks := t2.fks ++ [fk] }
        | _ => t2
    | Option.none => t

/-- SQLParser._parse_create_table (lines 50-98): regex-extract name and
body, split the qualified name, fold the elements into the table; the
regex failing raises ParsingError, whose str() is the bracketed code
followed by the message. -/
def parse_create_table (stmt : List Char) : Except String PTable :=
  match searchCT stmt with
  | Option.none =>
      .error ("[PARSING_ERROR] Cannot parse CREATE TABLE: " ++ String.mk stmt)
  | some (fullName, body) =>
      let sq := split_qualified_name fullName
      let t0 : PTable := ⟨sq.2, sq.1, [], [], String.mk stmt⟩
      .ok ((splitElements body).foldl (processElement sq.2) t0)

/-- SQLParser.parse_to_objects (lines 31-44): split into statements, strip,
keep CREATE TABLE statements, parse each in order; a ParsingError
propagates. -/
def parse_to_objects (cs : List Char) : Except String (List PTable) :=
  (sqlparseSplit cs).foldlM (fun acc stmtRaw =>
    let stmt := pyStrip stmtRaw
    if stmt.isEmpty then pure acc
    else if "CREATE TABLE".data.isPrefixOf (stmt.map Char.toUpper) then
      (parse_create_table stmt).map (fun t => acc ++ [t])
    else pure acc) ([] : List PTable)

/-- GraphBuilder._norm_ident (src/graph/builder.py): strip whitespace, strip
double quotes, lowercase, with None and empty collapsing to empty. -/
def normIdent (s : String) : String :=
  pyLower (String.mk (stripChar '"' (pyStrip s.data)))

/-- GraphBuilder._table_key, including its own (schema or public) default. -/
def tableKey (schema table : String) : String × String :=
  (normIdent (if schema.isEmpty then "public" else schema), normIdent table)

/-- Python dict assignment into the table_ids dict. -/
def tidSet (k : String × String) (v : Nat) :
    List ((String × String) × Nat) → List ((String × String) × Nat)
  | [] => [(k, v)]
  | (k2, v2) :: rest =>
      if k2 = k then (k, v) :: rest else (k2, v2) :: tidSet k v rest

/-- Pass one of GraphBuilder.build_from_objects: a vertex per table, the
table_ids dict keyed by normalized (schema, name). -/
def buildPass1 (objects : List PTable) (g0 : SchemaGraph) :
    SchemaGraph × List ((String × String) × Nat) :=
  objects.foldl (fun acc t =>
    let schema := if t.schema = "" then "public" else t.schema
    let va := acc.1.add_vertex t.toObj
    (va.1, tidSet (tableKey schema t.name) va.2 acc.2)) (g0, [])

/-- GraphBuilder._add_column and _add_column_constraints for one column:
the column vertex (with data_type re-written into its attributes), its
Contains edge, and the derived primary-key and unique vertices with their
DependsOn and Contains edges. -/
def addColumnAndConstraints (tname schema : String) (tid : Nat)
    (g : SchemaGraph) (col : PColumn) : Except String SchemaGraph := do
  let obj := { col.obj with
    attributes := pySet col.obj.attributes "data_type" (.str col.data_type) }
  let va := g.add_vertex obj
  let cid := va.2
  let g1 ← va.1.add_edge cid tid .contains
  let attrs := obj.attributes
  let g2 ←
    if (pyGet attrs "is_primary_key").pyTruthy then do
      let pk : DatabaseObject := ⟨0, .primary_key, "pk_" ++ tname, some schema,
        [("table", .str tname), ("column", .str obj.name)]⟩
      let vb := g1.add_vertex pk
      let g2a ← vb.1.add_edge vb.2 cid .depends_on
      g2a.add_edge vb.2 tid .contains
    else pure g1
  if (pyGet attrs "is_unique").pyTruthy ∧
      !(pyGet attrs "is_primary_key").pyTruthy then do
    let uq : DatabaseObject := ⟨0, .unique_constraint,
      "uq_" ++ tname ++ "_" ++ obj.name, some schema,
      [("table", .str tname), ("column", .str obj.name)]⟩
    let vc := g2.add_vertex uq
    let g3a ← vc.1.add_edge vc.2 cid .depends_on
    g3a.add_edge vc.2 tid .contains
  else pure g2

/-- Pass two of build_from_objects: columns and their constraints, skipping
tables whose id lookup is falsy (absent, or the never-assigned id zero). -/
def buildPass2 (objects : List PTable) (tids : List ((String × String) × Nat))
    (g0 : SchemaGraph) : Except String SchemaGraph :=
  objects.foldlM (fun g t =>
    let schema := if t.schema = "" then "public" else t.schema
    match tids.lookup (tableKey schema t.name) with
    | Option.none => pure g
    | some tid =>
        if tid = 0 then pure g
        else (t.columns.map Prod.snd).foldlM
          (addColumnAndConstraints t.name schema tid) g) g0

/-- The fk loop body of GraphBuilder._add_foreign_key_objects: a
ForeignKey vertex with a DependsOn edge to the owning table and a
References edge to the target table, skipped when the referenced table is
falsy or not registered. -/
def addFK (tname schema : String) (from_tid : Nat)
    (tids : List ((String × String) × Nat))
    (g : SchemaGraph) (fk : FKInfo) : Except String SchemaGraph :=
  let ref_table := fk.referenced_table.getD ""
  let ref_schema := fk.referenced_schema.getD "public"
  if ref_table = "" then pure g
  else
    match tids.lookup (tableKey ref_schema ref_table) with
    | Option.none => pure g
    | some to_tid =>
        if to_tid = 0 then pure g
        else do
          let fk_obj : DatabaseObject := ⟨0, .foreign_key,
            "fk_" ++ tname ++ "_" ++ ref_table, some schema,
            [("from_table", .str tname), ("to_table", .str ref_table),
             ("from_column",
              match fk.column with
              | some c => .str c
              | Option.none => .none),
             ("to_column",
              match fk.referenced_column with
              | some c => .str c
              | Option.none => .none)]⟩
          let vd := g.add_vertex fk_obj
          let g1 ← vd.1.add_edge vd.2 from_tid .depends_on
          g1.add_edge vd.2 to_tid .references

/-- Pass three of build_from_objects: the foreign-key objects. -/
def buildPass3 (objects : List PTable) (tids : List ((String × String) × Nat))
    (g0 : SchemaGraph) : Except String SchemaGraph :=
  objects.foldlM (fun g t =>
    let schema := if t.schema = "" then "public" else t.schema
    match tids.lookup (tableKey schema t.name) with
    | Option.none => pure g
    | some ftid =>
        if ftid = 0 then pure g
        else t.fks.foldlM (addFK t.name schema ftid tids) g) g0

/-- GraphBuilder.build_from_objects (src/graph/builder.py, lines 34-76):
tables, then columns with constraints, then foreign keys; a ValueError
raised by add_edge propagates. -/
def build_from_objects (objects : List PTable) (name : String) :
    Except String SchemaGraph := do
  let p1 := buildPass1 objects (SchemaGraph.init name)
  let g2 ← buildPass2 objects p1.2 p1.1
  buildPass3 objects p1.2 g2

/-- One per-rule statistics record of RuleRegistry.apply_all. -/
structure RuleStat where
  rule_id : String
  applied : Bool
  conflicts_found : Nat
  error : Option String
  deriving DecidableEq, Repr

/-- The dict RuleRegistry.apply_all returns: conflicts, statistics, and the
summary's total (its rule-count entries are fixed constants). -/
structure RegistryResult where
  conflicts : List Conflict
  statistics : List RuleStat
  summary_total : Nat
  deriving DecidableEq, Repr

/-- BaseRule.post_process_conflicts (src/rules/base.py, lines 69-110) under
the default configuration: every rule-built conflict already carries rule
and level, so of the setdefaults only rule_name can fire; at most 100
conflicts per rule, a Low note appended when trimmed. -/
def post_process_conflicts (rid rname : String) (cs : List Conflict) :
    List Conflict :=
  if cs.isEmpty then []
  else
    let filled := (cs.take 100).map (fun c =>
      { c with rule_name :=
          match c.rule_name with
          | some n => some n
          | Option.none => some rname })
    if cs.length > 100 then
      filled ++
        [{ rule := rid, rule_name := some rname, level := "low",
           message := "Обнаружено " ++ toString cs.length ++
             " конфликтов. Показаны первые 100.",
           details := [("total_conflicts", .nat cs.length),
             ("reported_conflicts", .nat 100), ("rule", .str rid)] }]
    else filled

/-- DEFAULT_RULES as registered and id-ordered by the registry: RULE_ID,
RULE_NAME and apply for R1 through R7, the pure rules wrapped as ok. -/
def defaultRules :
    List (String × String ×
      (Delta → SchemaGraph → SchemaGraph → Except String (List Conflict))) :=
  [("R1", "Удаление таблицы с зависимостями",
    fun d a b => .ok (ruleR1Apply d a b)),
   ("R2", "Несовместимое изменение типа колонки",
    fun d a b => .ok (ruleR2Apply d a b)),
   ("R3", "Удаление таблицы, участвующей во внешних связях",
    fun d a b => .ok (ruleR3Apply d a b)),
   ("R4", "Удаление ограничения целостности",
    fun d a b => .ok (ruleR4Apply d a b)),
   ("R5", "Primary key modification",
    fun d a b => .ok (ruleR5Apply d a b)),
   ("R6", "Add NOT NULL without default", ruleR6Apply),
   ("R7", "Cyclic dependencies", ruleR7Apply)]

/-- RuleRegistry.apply_all (src/rules/registry.py, lines 90-163) under the
default configuration: rules in id order; a rule that raises contributes no
conflicts and an applied-False statistic; every reported conflict gets
rule_info (the id of the attached rule metadata); global cap of 1000 with a
SYSTEM limiter conflict beyond it. -/
def apply_all (delta : Delta) (graph_a graph_b : SchemaGraph) :
    RegistryResult :=
  let step := fun (acc : List Conflict × List RuleStat)
      (r : String × String ×
        (Delta → SchemaGraph → SchemaGraph → Except String (List Conflict))) =>
    match r.2.2 delta graph_a graph_b with
    | .ok raw =>
        let processed := (post_process_conflicts r.1 r.2.1 raw).map
          (fun c => { c with rule_info := some r.1 })
        (acc.1 ++ processed,
         acc.2 ++ [⟨r.1, true, processed.length, Option.none⟩])
    | .error e => (acc.1, acc.2 ++ [⟨r.1, false, 0, some e⟩])
  let folded := defaultRules.foldl step ([], [])
  let all := folded.1
  let trimmed :=
    if all.length > 1000 then
      all.take 1000 ++
        [{ rule := "SYSTEM", rule_name := some "System limiter",
           level := "low",
           message := "Обнаружено " ++ toString all.length ++
             " конфликтов. Показаны первые 1000.",
           details := [("total_conflicts", .nat all.length),
             ("reported_conflicts", .nat 1000)] }]
    else all
  ⟨trimmed, folded.2, trimmed.length⟩

/-- SQLNormalizer.split_statements (src/parser/normalizer.py, lines
193-207): normalize, nothing for blank, else the sqlparse split with blank
statements stripped out. -/
def split_statements (cs : List Char) : List (List Char) :=
  let n := normalizeChars cs
  if (pyStrip n).isEmpty then []
  else ((sqlparseSplit n).map pyStrip).filter (fun s => !s.isEmpty)

/-- SQLNormalizer.is_ddl_statement (lines 209-211): the normalized,
uppercased text starts with a DDL keyword followed by a space. -/
def is_ddl_statement (cs : List Char) : Bool :=
  let n := (normalizeChars cs).map Char.toUpper
  ["CREATE ", "ALTER ", "DROP ", "TRUNCATE "].any
    (fun k => k.data.isPrefixOf n)

/-- MigrationConflictDetector._parse_schema (src/detection/orchestrator.py,
lines 87-102): normalize, split (split_statements normalizes again), keep
the DDL statements (is_ddl_statement normalizes again), parse each and
concatenate. -/
def parse_schema (cs : List Char) : Except String (List PTable) :=
  let normalized := normalizeChars cs
  (split_statements normalized).foldlM (fun acc stmt =>
    if is_ddl_statement stmt then
      (parse_to_objects stmt).map (fun parsed => acc ++ parsed)
    else pure acc) ([] : List PTable)

/-- The summary block of a detection report. -/
structure Summary where
  has_conflicts : Bool
  has_critical_conflicts : Bool
  total_conflicts : Nat
  critical_conflicts : Nat
  high_conflicts : Nat
  medium_conflicts : Nat
  low_conflicts : Nat
  merge_blocked : Bool
  deriving DecidableEq, Repr

/-- A detection report: summary, the (possibly truncated) conflict list,
and the error block of an error report.  The metadata timestamp and the
performance timings of the source are wall-clock readings outside this
model, and the analysis block restates graph and delta sizes. -/
structure Report where
  summary : Summary
  conflicts : List Conflict
  error : Option String
  deriving DecidableEq, Repr

/-- MigrationConflictDetector._generate_report (lines 108-186) under the
default configuration (max_conflicts 100): the level values are lowercased
in place, so the truncated list shares them; the counts run over the whole
untruncated list; critical presence blocks the merge. -/
def generate_report (result : RegistryResult) : Report :=
  let low := result.conflicts.map (fun c => { c with level := pyLower c.level })
  let crit := (low.filter (fun c => c.level = "critical")).length
  let high := (low.filter (fun c => c.level = "high")).length
  let med := (low.filter (fun c => c.level = "medium")).length
  let lowc := (low.filter (fun c => c.level = "low")).length
  { summary :=
      { has_conflicts := low.length > 0,
        has_critical_conflicts := crit > 0,
        total_conflicts := low.length,
        critical_conflicts := crit,
        high_conflicts := high,
        medium_conflicts := med,
        low_conflicts := lowc,
        merge_blocked := crit > 0 },
    conflicts := low.take 100,
    error := Option.none }

/-- The synthetic conflict of an error report
(MigrationConflictDetector._generate_error_report, lines 188-230). -/
def systemConflict (msg : String) : Conflict :=
  { rule := "SYSTEM", level := "critical",
    message := "Ошибка обработки: " ++ msg,
    details := [("error_type", .str "system_error")] }

/-- MigrationConflictDetector._generate_error_report: one critical SYSTEM
conflict, an all-blocking summary, and the error block. -/
def generate_error_report (msg : String) : Report :=
  { summary :=
      { has_conflicts := true, has_critical_conflicts := true,
        total_conflicts := 1, critical_conflicts := 1, high_conflicts := 0,
        medium_conflicts := 0, low_conflicts := 0, merge_blocked := true },
    conflicts := [systemConflict msg],
    error := some msg }

/-- The fallible body of the try block of detect: parse both schemas, build
both graphs, compare, apply the rules. -/
def detectPipeline (sql_a sql_b : String) : Except String RegistryResult := do
  let objects_a ← parse_schema sql_a.data
  let objects_b ← parse_schema sql_b.data
  let graph_a ← build_from_objects objects_a "schema_a"
  let graph_b ← build_from_objects objects_b "schema_b"
  let delta := GraphComparator.compare graph_a graph_b
  pure (apply_all delta graph_a graph_b)

/-- MigrationConflictDetector.detect (src/detection/orchestrator.py, lines
45-80): a successful pipeline becomes the ordinary report and any raised
exception is caught once and becomes the error report. -/
def detect (sql_a sql_b : String) : Report :=
  match detectPipeline sql_a sql_b with
  | .ok result => generate_report result
  | .error e => generate_error_report e

/-- Two tables inserted through add_vertex. -/
def c10g2 : SchemaGraph :=
  (((SchemaGraph.init "g").add_vertex
      ⟨0, .table, "a", some "public", []⟩).1.add_vertex
      ⟨0, .table, "b", some "public", []⟩).1

/-- The graph after one successful add_edge on c10g2. -/
def c10g3 : SchemaGraph :=
  { c10g2 with edges := [Edge.mk 1 2 .references] }

/-- Witness instantiating C10: add_edge on the empty graph fails, and a
concrete reachable graph satisfies the endpoint invariant. -/
theorem c10_witness :
    (∃ msg, (SchemaGraph.init "g").add_edge 1 2 .references = .error msg) ∧
      (∀ e ∈ c10g3.edges, e.src ∈ c10g3.ids ∧ e.dst ∈ c10g3.ids) :=
  ⟨c10_add_edge_invariant.1 (SchemaGraph.init "g") 1 2 .references
      (Or.inl (by decide)),
   c10_add_edge_invariant.2 c10g3
      (@Reachable.add_edge c10g2 c10g3 1 2 RelationType.references
        (Reachable.add_vertex ⟨0, .table, "b", some "public", []⟩
          (Reachable.add_vertex ⟨0, .table, "a", some "public", []⟩
            (Reachable.init "g")))
        (by decide))⟩

/-- C7: SQLNormalizer.normalize is not idempotent.  On the eight-character
input consisting of a single-quoted SQL string literal whose content is a
dash, a block comment, and a dash, the comment regexes (which do not respect
string literals) first turn the literal into two adjacent dashes; running
normalize again then strips those dashes as a line comment, leaving a lone
quote.  So normalize applied twice differs from normalize applied once. -/
theorem c7_normalize_not_idempotent :
    normalize ("'-/**/-'") = "'--'" ∧
      normalize (normalize ("'-/**/-'")) = "'" ∧
      normalize (normalize ("'-/**/-'")) ≠ normalize ("'-/**/-'") := by
  refine ⟨rfl, rfl, ?_⟩
  decide

/-- Schema A of the spec's R6 scenario. -/
def c4sqlA : String := "CREATE TABLE users (email TEXT)"

/-- Schema B of the spec's R6 scenario. -/
def c4sqlB : String := "CREATE TABLE users (email TEXT NOT NULL)"

/-- The delta the pipeline computes for the R6 scenario, before rules. -/
def c4delta : Except String Delta := do
  let oa ← parse_schema c4sqlA.data
  let ob ← parse_schema c4sqlB.data
  let ga ← build_from_objects oa "schema_a"
  let gb ← build_from_objects ob "schema_b"
  pure (GraphComparator.compare ga gb)

/-- The modified columns of that delta (empty would also result if any
stage failed; the theorem below shows one exists, so every stage ran). -/
def c4modified : List ModifiedObject :=
  match c4delta with
  | .ok d => d.modified_by_type .column
  | .error _ => []

/-- C4 (code bug): on the spec's own R6 scenario (email TEXT becoming
email TEXT NOT NULL) the full pipeline emits no conflict at all, in
particular not the promised High R6 conflict.  The root cause is visible in
the delta: SQLParser records the NOT NULL flag only as not_null and never
passes is_nullable to the Column constructor, whose setdefault then pins
is_nullable True on both sides; the column is reported as modified on
definition and not_null, but RuleR6 fires only on is_nullable changes.
(Had the guard ever fired, the rule would raise AttributeError anyway:
get_full_name is defined nowhere.) -/
theorem c4_pipeline_misses_r6 :
    (detect c4sqlA c4sqlB).conflicts = [] ∧
      (detect c4sqlA c4sqlB).summary.has_conflicts = false ∧
      ∃ m ∈ c4modified,
        m.after.name = "email" ∧
        "not_null" ∈ m.changed_fields ∧
        "is_nullable" ∉ m.changed_fields ∧
        pyGet m.before.attributes "is_nullable" = .bool true ∧
        pyGet m.after.attributes "is_nullable" = .bool true := by
  refine ⟨rfl, rfl, ?_⟩
  decide

/-- C9: detect never propagates a pipeline failure: whenever any stage of
the pipeline (parsing, graph building, comparison, rule application)
raises, detect returns the error report — exactly one synthetic conflict
with rule SYSTEM and level critical carrying the message, and a summary
with merge_blocked true — while a successful pipeline yields the ordinary
report with no error block. -/
theorem c9_detect_error_contract (sql_a sql_b : String) :
    (∀ e, detectPipeline sql_a sql_b = .error e →
      detect sql_a sql_b = generate_error_report e ∧
        (detect sql_a sql_b).conflicts =
          [{ rule := "SYSTEM", level := "critical",
             message := "Ошибка обработки: " ++ e,
             details := [("error_type", .str "system_error")] }] ∧
        (detect sql_a sql_b).summary.merge_blocked = true ∧
        (detect sql_a sql_b).summary.critical_conflicts = 1 ∧
        (detect sql_a sql_b).error = some e) ∧
    (∀ r, detectPipeline sql_a sql_b = .ok r →
      detect sql_a sql_b = generate_report r ∧
        (detect sql_a sql_b).error = Option.none) := by
  constructor
  · intro e he
    unfold detect
    rw [he]
    exact ⟨rfl, rfl, rfl, rfl, rfl⟩
  · intro r hr
    unfold detect
    rw [hr]
    exact ⟨rfl, rfl⟩

/-- Witness instantiating C9 on a concrete failing input: a CREATE TABLE
statement without a parenthesised body makes the parsing stage raise
ParsingError, and detect returns the blocking error report. -/
theorem c9_detect_witness :
    detect "CREATE TABLE x" "" =
        generate_error_report
          "[PARSING_ERROR] Cannot parse CREATE TABLE: CREATE TABLE x" ∧
      (detect "CREATE TABLE x" "").summary.merge_blocked = true :=
  have h : detectPipeline "CREATE TABLE x" "" =
      .error "[PARSING_ERROR] Cannot parse CREATE TABLE: CREATE TABLE x" := by
    decide
  ⟨((c9_detect_error_contract "CREATE TABLE x" "").1 _ h).1,
   ((c9_detect_error_contract "CREATE TABLE x" "").1 _ h).2.2.1⟩

end MigrationDetector
